import Mathlib

/-!
Verification of the Director / AI-Developer-Workflow core of the repository.

The Python sources embedded here:
  * `src/bin/director.py`            — `Director` class (retry state machine,
    evaluator strategies, command executor, prompt builder).
  * `src/bin/pydantic_adw/agent.py`  — `WorkflowAgent` (PydanticAI variant of
    the same pattern: run loop, tools, failure analysis).
  * `src/bin/pydantic_adw/models.py` — pydantic data models (`WorkflowConfig`,
    `StructuredEvaluation`, `FailureAnalysis`, ...).

Modelling conventions:
  * Python strings are Lean `String`s; the helpers below re-implement, at the
    `List Char` level, the exact Python primitives the sources use
    (`in` substring test, `str.lower`, `str.strip`, `str.split` slices,
    slicing `s[:n]`).
  * External effects (subprocess runs, LLM calls, the file system) are passed
    in explicitly: a subprocess run is a value of `ExecOutcome`, an LLM call
    is an `Except String α` oracle (`.error` = the Python call raised), the
    file system is an explicit association list / existence predicate.
  * `try/except` blocks become `match` on those `Except`/outcome values,
    following the Python control flow branch by branch.
-/

set_option maxRecDepth 100000

/-! ## String primitives (models of the Python primitives used by the sources) -/

/-- First index at which `pat` occurs in `hay` (leftmost match), as used by
Python's `in`, `str.find` and `str.split`. -/
def findSubIdx? (hay pat : List Char) : Option Nat :=
  if pat.isPrefixOf hay then some 0
  else
    match hay with
    | [] => none
    | _ :: t => (findSubIdx? t pat).map (· + 1)

/-- Python `pat in hay` (substring containment), at the character-list level. -/
def containsSub (hay pat : List Char) : Bool :=
  (findSubIdx? hay pat).isSome

/-- Python `pat in hay` for `String`s. -/
def strContainsB (hay pat : String) : Bool :=
  containsSub hay.data pat.data

/-- Propositional substring containment (`pat` occurs inside `hay`). -/
def StrContains (hay pat : String) : Prop :=
  pat.data <:+: hay.data

instance (hay pat : String) : Decidable (StrContains hay pat) :=
  inferInstanceAs (Decidable (pat.data <:+: hay.data))

/-- Propositional prefix relation (`s` starts with `p`). -/
def StrStarts (s p : String) : Prop :=
  p.data <+: s.data

instance (s p : String) : Decidable (StrStarts s p) :=
  inferInstanceAs (Decidable (p.data <+: s.data))

/-- Python `str.lower()` (character-wise lowering; the sources apply it to
ASCII command output). -/
def strLower (s : String) : String :=
  ⟨s.data.map Char.toLower⟩

/-- Python slicing `s[:n]` (first `n` characters). -/
def strTake (s : String) (n : Nat) : String :=
  ⟨s.data.take n⟩

/-- `findSubIdx?` is `some` exactly when the pattern occurs as an infix. -/
theorem findSubIdx?_isSome_iff_sub (hay pat : List Char) :
    (findSubIdx? hay pat).isSome ↔ pat <:+: hay := by
  induction hay with
  | nil =>
    cases pat with
    | nil => simp [findSubIdx?, List.isPrefixOf]
    | cons p ps => simp [findSubIdx?, List.isPrefixOf]
  | cons c t ih =>
    rw [findSubIdx?, List.infix_cons_iff]
    by_cases h : pat.isPrefixOf (c :: t)
    · simp [h, List.isPrefixOf_iff_prefix.mp h]
    · have h' : ¬ pat <+: (c :: t) := fun hp => h (List.isPrefixOf_iff_prefix.mpr hp)
      simp [h, h', ih]

/-- `StrContains` agrees with the boolean Python `in` model. -/
theorem strContainsB_eq_true_iff (hay pat : String) :
    strContainsB hay pat = true ↔ StrContains hay pat := by
  unfold strContainsB containsSub StrContains
  rw [← findSubIdx?_isSome_iff_sub]

/-! ## Core data model (from `director.py` / `models.py`) -/

/-- `EvaluationResult` (director.py lines 27-30): minimal evaluator verdict.
`feedback` is `Optional[str]` in the source. -/
structure EvaluationResult where
  success : Bool
  feedback : Option String
  deriving Repr, DecidableEq

/-- `DirectorConfig` (director.py lines 92-103).  The `evaluator` field is kept
as a raw string here; the pydantic `Literal[...]` validation that runs on
construction is modelled separately by `DirectorConfig.validateEvaluatorTag`. -/
structure DirectorConfig where
  prompt : String
  coder_model : String
  evaluator_model : String
  max_iterations : Nat
  execution_command : String
  context_editable : List String
  context_read_only : List String
  evaluator : String
  log_file : String
  deriving Repr, DecidableEq

/-! ## Evaluator strategies (`director.py` lines 406-434) -/

/-- `Director._unittest_evaluator` (director.py lines 406-419). -/
def Director.unittest_evaluator (execution_output : String) : EvaluationResult :=
  if strContainsB execution_output "FAILED" || strContainsB execution_output "ERROR" then
    { success := false
      feedback := some ("Tests failed. Please fix the following issues:\n" ++ execution_output) }
  else if strContainsB execution_output "OK" then
    { success := true, feedback := some "All tests passed successfully." }
  else
    { success := false
      feedback := some ("Unable to determine test results. Output:\n" ++ execution_output) }

/-- `Director._pytest_evaluator` (director.py lines 421-434). -/
def Director.pytest_evaluator (execution_output : String) : EvaluationResult :=
  if strContainsB (strLower execution_output) "failed" then
    { success := false
      feedback := some ("Tests failed. Please fix the following issues:\n" ++ execution_output) }
  else if strContainsB (strLower execution_output) "passed"
      && !(strContainsB (strLower execution_output) "failed") then
    { success := true, feedback := some "All tests passed successfully." }
  else
    { success := false
      feedback := some ("Unable to determine test results. Output:\n" ++ execution_output) }

/-- C7: the pytest evaluator succeeds iff the (lowercased) output contains
`"passed"` and not `"failed"`; `"failed"` forces failure even alongside
`"passed"`; outputs with neither token fail with the "unable to determine"
feedback message. -/
theorem c7_pytest_evaluator_spec (execution_output : String) :
    ((Director.pytest_evaluator execution_output).success = true ↔
      (StrContains (strLower execution_output) "passed" ∧
        ¬ StrContains (strLower execution_output) "failed")) ∧
    (StrContains (strLower execution_output) "failed" →
      (Director.pytest_evaluator execution_output).success = false) ∧
    ((¬ StrContains (strLower execution_output) "passed" ∧
      ¬ StrContains (strLower execution_output) "failed") →
      Director.pytest_evaluator execution_output =
        { success := false
          feedback := some ("Unable to determine test results. Output:\n" ++ execution_output) }) := by
  have hf := strContainsB_eq_true_iff (strLower execution_output) "failed"
  have hp := strContainsB_eq_true_iff (strLower execution_output) "passed"
  unfold Director.pytest_evaluator
  by_cases h1 : strContainsB (strLower execution_output) "failed" = true <;>
    by_cases h2 : strContainsB (strLower execution_output) "passed" = true <;>
      simp_all

/-- Witness for C7 on concrete pytest outputs: `"3 passed, 1 failed"` fails
(failed takes precedence), and the theorem applies to it. -/
theorem c7_pytest_evaluator_spec_witness :
    (Director.pytest_evaluator "3 passed, 1 failed").success = false ∧
    StrContains (strLower "3 passed, 1 failed") "failed" := by
  refine ⟨(c7_pytest_evaluator_spec "3 passed, 1 failed").2.1 ?_, ?_⟩ <;> decide

/-! ## The pydantic data model (`pydantic_adw/models.py`) -/

/-- Exact-decimal model of the Python floats appearing in the data model
(`task_completion`, `coverage`): the value is `mantissa / 10 ^ exp`.  JSON
serialization of such a float prints the decimal literal; parsing a decimal
literal recovers `mantissa` and `exp` exactly. -/
structure DecimalFloat where
  mantissa : Int
  exp : Nat
  deriving Repr, DecidableEq

/-- `RiskLevel` (models.py lines 13-18). -/
inductive RiskLevel where
  | low | medium | high | critical
  deriving Repr, DecidableEq

/-- `ChangeType` (models.py lines 21-25). -/
inductive ChangeType where
  | add | modify | delete
  deriving Repr, DecidableEq

/-- `SecurityCheck` (models.py lines 28-33 / director.py lines 32-37). -/
structure SecurityCheck where
  passed : Bool
  issues : List String
  risk_level : RiskLevel
  recommendations : List String
  deriving Repr, DecidableEq

/-- `TestResult` (models.py lines 36-43). -/
structure TestResult where
  passed : Bool
  total_tests : Int
  passed_tests : Int
  failed_tests : Int
  error_messages : List String
  coverage : Option DecimalFloat
  deriving Repr, DecidableEq

/-- `ChangesetItem` (models.py lines 46-51). -/
structure ChangesetItem where
  file : String
  change_type : ChangeType
  description : String
  lines_changed : Option Int
  deriving Repr, DecidableEq

/-- `WorkflowChangeset` (models.py lines 54-57). -/
structure WorkflowChangeset where
  changes : List ChangesetItem
  summary : String
  deriving Repr, DecidableEq

/-- `StructuredEvaluation` (models.py lines 69-85 / director.py lines 75-90). -/
structure StructuredEvaluation where
  success : Bool
  task_completion : DecimalFloat
  security_check : SecurityCheck
  test_results : Option TestResult
  changeset : WorkflowChangeset
  feedback : String
  next_steps : List String
  deriving Repr, DecidableEq

/-- The `task_completion` field validator (models.py lines 79-85): rejects
values outside `[0.0, 1.0]`.  On the decimal model `mantissa / 10 ^ exp`,
`v < 0.0` is `mantissa < 0` and `v > 1.0` is `mantissa > 10 ^ exp`. -/
def StructuredEvaluation.validate_completion_percentage (v : DecimalFloat) :
    Except String DecimalFloat :=
  if v.mantissa < 0 ∨ v.mantissa > (10 : Int) ^ v.exp then
    .error "Task completion must be between 0.0 and 1.0"
  else
    .ok v

/-- `FailureAnalysis` (models.py lines 122-128). -/
structure FailureAnalysis where
  root_causes : List String
  affected_files : List String
  suggested_fixes : List String
  logs_location : Option String
  deriving Repr, DecidableEq

/-- File-system paths, modelled by their list of components (Python
`pathlib.Path.parts`; splitting a path string into components happens outside
the model). -/
abbrev PyPath := List String

/-- Rendering of a path for messages and prompts (`str(path)`). -/
def pathStr (p : PyPath) : String :=
  String.intercalate "/" p

/-- `WorkflowConfig` (models.py lines 88-99).  As with `DirectorConfig`, the
`Literal[...]` evaluator-tag validation is modelled separately. -/
structure WorkflowConfig where
  name : String
  prompt : String
  coder_model : String
  evaluator_model : String
  max_iterations : Nat
  execution_command : String
  context_editable : List PyPath
  context_read_only : List PyPath
  evaluator : String
  log_file : String
  deriving Repr, DecidableEq

/-- `WorkflowDependencies` (models.py lines 110-119); the fields the run loop
and prompts read and write (`working_directory` / `execution_context` only
feed logging and are omitted). -/
structure WorkflowDependencies where
  config : WorkflowConfig
  current_iteration : Nat
  last_execution_output : String
  last_evaluation : Option StructuredEvaluation
  deriving Repr, DecidableEq

/-! ## CommandExecutor (`director.py` lines 267-293, `agent.py` lines 313-342)

A subprocess run is represented by its outcome: it completed with captured
streams and a return code, it exceeded the timeout
(`subprocess.TimeoutExpired`), or it raised with an exception message. -/

inductive ExecOutcome where
  | completed (stdout stderr : String) (returncode : Int)
  | timedOut
  | failed (msg : String)
  deriving Repr, DecidableEq

/-- `Director.run_execution_command` (director.py lines 267-293).  Takes and
returns the `self.last_execution_output` attribute (`none` = never assigned):
the source assigns it only in the successful branch, and returns the
`ERROR:` sentinels without storing them. -/
def Director.run_execution_command (last_execution_output : Option String)
    (o : ExecOutcome) : String × Option String :=
  match o with
  | .completed out err _ => (out ++ err, some (out ++ err))
  | .timedOut => ("ERROR: Execution timed out after 5 minutes", last_execution_output)
  | .failed msg => ("ERROR: " ++ msg, last_execution_output)

/-- `WorkflowAgent.run_execution_command` (agent.py lines 313-342).  Returns
the output and the updated dependencies: here
`self.deps.last_execution_output = output` runs on every branch (line 339). -/
def WorkflowAgent.run_execution_command (deps : WorkflowDependencies)
    (o : ExecOutcome) : String × WorkflowDependencies :=
  let output :=
    match o with
    | .completed out err _ => out ++ err
    | .timedOut => "ERROR: Execution timed out after 5 minutes"
    | .failed msg => "ERROR: " ++ msg
  (output, { deps with last_execution_output := output })

/-- C3: the command executor is total by construction (every subprocess
outcome, timeout and exception included, maps to a returned string rather
than a propagated exception), the timeout sentinel begins with `ERROR:` and
describes the timeout, and any other execution failure yields an `ERROR:`
string containing the exception text — in both implementations. -/
theorem c3_command_executor_error_sentinels (last : Option String)
    (deps : WorkflowDependencies) (msg : String) :
    (StrStarts (Director.run_execution_command last .timedOut).1 "ERROR:" ∧
      StrContains (Director.run_execution_command last .timedOut).1 "timed out") ∧
    ((Director.run_execution_command last (.failed msg)).1 = "ERROR: " ++ msg ∧
      StrStarts (Director.run_execution_command last (.failed msg)).1 "ERROR:" ∧
      StrContains (Director.run_execution_command last (.failed msg)).1 msg) ∧
    (StrStarts (WorkflowAgent.run_execution_command deps .timedOut).1 "ERROR:" ∧
      StrContains (WorkflowAgent.run_execution_command deps .timedOut).1 "timed out") ∧
    ((WorkflowAgent.run_execution_command deps (.failed msg)).1 = "ERROR: " ++ msg ∧
      StrStarts (WorkflowAgent.run_execution_command deps (.failed msg)).1 "ERROR:" ∧
      StrContains (WorkflowAgent.run_execution_command deps (.failed msg)).1 msg) := by
  have hto : StrStarts "ERROR: Execution timed out after 5 minutes" "ERROR:" ∧
      StrContains "ERROR: Execution timed out after 5 minutes" "timed out" := by decide
  have hpre : StrStarts ("ERROR: " ++ msg) "ERROR:" := by
    show "ERROR:".data <+: ("ERROR: " ++ msg).data
    rw [String.data_append]
    exact (by decide : "ERROR:".data <+: "ERROR: ".data).trans (List.prefix_append _ _)
  have hinf : StrContains ("ERROR: " ++ msg) msg := by
    show msg.data <:+: ("ERROR: " ++ msg).data
    rw [String.data_append]
    exact (List.suffix_append _ _).isInfix
  exact ⟨hto, ⟨rfl, hpre, hinf⟩, hto, ⟨rfl, hpre, hinf⟩⟩

/-! ## PromptBuilder -/

/-- Rendering of an `Optional[str]` inside a Python f-string
(`None` prints as `"None"`). -/
def feedbackStr : Option String → String
  | some f => f
  | none => "None"

/-- `Director.create_prompt` (director.py lines 201-236).
`last_execution_output` is the `self.last_execution_output` attribute
(`none` = never assigned, in which case the source's `hasattr` guard
substitutes `""`).  For `iteration > 0` the source reads
`evaluation.feedback`; `direct()` always passes a real evaluation there
(an absent one would raise in Python and is rendered `"None"` here). -/
def Director.create_prompt (cfg : DirectorConfig) (last_execution_output : Option String)
    (iteration : Nat) (evaluation : Option EvaluationResult) : String :=
  if iteration = 0 then cfg.prompt
  else
    let execution_output := last_execution_output.getD ""
    let feedback :=
      match evaluation with
      | some ev => feedbackStr ev.feedback
      | none => "None"
    "\n# Task Iteration " ++ toString (iteration + 1) ++
    "\n\n## Original Task Specification\n" ++ cfg.prompt ++
    "\n\n## Previous Execution Output\n```\n" ++ execution_output ++
    "\n```\n\n## Feedback from Previous Attempt\n" ++ feedback ++
    "\n\n## Instructions\nPlease address the feedback above and make the necessary changes to solve the task.\nYou have " ++
    toString (cfg.max_iterations - iteration) ++
    " attempts remaining.\n\nRemember to focus on passing the execution command: `" ++
    cfg.execution_command ++ "`\n"

/-- `.upper()` on the string value of a `RiskLevel`. -/
def RiskLevel.upper : RiskLevel → String
  | .low => "LOW"
  | .medium => "MEDIUM"
  | .high => "HIGH"
  | .critical => "CRITICAL"

/-- Model of CPython `f"{x * 100:.1f}"` on the exact decimal value
`x = mantissa / 10 ^ exp`: `x * 100` rounded to one decimal place
(ties to even) and printed with one digit after the point. -/
def formatPercent1 (v : DecimalFloat) : String :=
  let a := v.mantissa.natAbs * 1000
  let b := 10 ^ v.exp
  let q := a / b
  let r := a % b
  let t := if 2 * r < b then q else if 2 * r > b then q + 1
           else if q % 2 = 0 then q else q + 1
  (if v.mantissa < 0 then "-" else "") ++ toString (t / 10) ++ "." ++ toString (t % 10)

/-- `WorkflowAgent._format_file_list` (agent.py lines 301-305). -/
def WorkflowAgent.format_file_list (file_list : List PyPath) : String :=
  if file_list.isEmpty then "None"
  else String.intercalate "\n" (file_list.map (fun f => "- " ++ pathStr f))

/-- `WorkflowAgent._format_list` (agent.py lines 307-311). -/
def WorkflowAgent.format_list (items : List String) : String :=
  if items.isEmpty then "None"
  else String.intercalate "\n" (items.map (fun i => "- " ++ i))

/-- The `base_prompt` local of `coder_system_prompt` (agent.py lines 79-105). -/
def WorkflowAgent.base_prompt (config : WorkflowConfig) : String :=
  "\n# AI Developer Workflow: " ++ config.name ++
  "\n\nYou are an expert coding assistant working on an AI Developer Workflow.\nYour task is to implement the requirements as specified.\n\n## Task Description\n" ++
  config.prompt ++
  "\n\n## Guidelines\n- Focus on making the necessary code changes to satisfy the requirements\n- Follow existing code conventions and patterns\n- Write clean, well-documented code\n- Consider security best practices\n- Test your changes thoroughly\n\n## Editable Files\n" ++
  WorkflowAgent.format_file_list config.context_editable ++
  "\n\n## Reference Files (Read-Only)\n" ++
  WorkflowAgent.format_file_list config.context_read_only ++
  "\n\n## Execution Command\n```\n" ++ config.execution_command ++ "\n```\n"

/-- The iteration-specific context built for `iteration > 0`
(agent.py lines 112-131), before the final-attempt emphasis is appended. -/
def WorkflowAgent.iteration_context_core (deps : WorkflowDependencies)
    (last_eval : StructuredEvaluation) : String :=
  "\n## Previous Iteration Results (Iteration " ++ toString deps.current_iteration ++
  "/" ++ toString deps.config.max_iterations ++ ")\n\n### Execution Output\n```\n" ++
  strTake deps.last_execution_output 2000 ++
  (if deps.last_execution_output.data.length > 2000 then "..." else "") ++
  "\n```\n\n### Evaluation Feedback\nSuccess: " ++
  (if last_eval.success then "✅" else "❌") ++
  "\nTask Completion: " ++ formatPercent1 last_eval.task_completion ++ "%" ++
  "\nSecurity: " ++ last_eval.security_check.risk_level.upper ++ " risk" ++
  "\nFeedback: " ++ last_eval.feedback ++
  "\n\n### Issues To Address\n" ++
  (if !last_eval.security_check.passed then
    WorkflowAgent.format_list last_eval.security_check.issues
  else "No security issues found.") ++
  "\n\n### Next Steps\n" ++ WorkflowAgent.format_list last_eval.next_steps ++ "\n"

/-- The final-attempt emphasis appended when
`current_iteration == max_iterations - 1` (agent.py lines 135-139). -/
def WorkflowAgent.finalAttemptClause : String :=
  "\n## ⚠️ FINAL ATTEMPT ⚠️\nThis is your final opportunity to complete this task successfully.\nFocus on addressing critical issues first and ensuring the execution command runs successfully.\n"

/-- The first-attempt context (agent.py line 141). -/
def WorkflowAgent.firstAttemptContext : String :=
  "\n## First Attempt\nThis is your first attempt at solving this task."

/-- Exhibit a substring occurrence by its surrounding context. -/
theorem strContains_build {s p : String} (pre post : List Char)
    (h : pre ++ p.data ++ post = s.data) : StrContains s p :=
  ⟨pre, post, h⟩

/-- `coder_system_prompt` (agent.py lines 70-143).  Integer arithmetic of the
source (`config.max_iterations - 1`) is carried out in `Int`. -/
def WorkflowAgent.coder_system_prompt (deps : WorkflowDependencies) : String :=
  WorkflowAgent.base_prompt deps.config ++
  (match deps.last_evaluation with
  | some last_eval =>
    if deps.current_iteration > 0 then
      WorkflowAgent.iteration_context_core deps last_eval ++
      (if (deps.current_iteration : Int) = (deps.config.max_iterations : Int) - 1 then
        WorkflowAgent.finalAttemptClause
      else "")
    else WorkflowAgent.firstAttemptContext
  | none => WorkflowAgent.firstAttemptContext)

/-- C5 (counterexample): on a timeout, `Director.run_execution_command`
returns the `ERROR:` sentinel but does *not* store it — the stored
`last_execution_output` keeps its previous value, and the prompt built for
the next iteration embeds that stale value, not the sentinel the evaluator
saw. -/
theorem c5_sentinel_not_stored_counterexample :
    (Director.run_execution_command (some "old output") ExecOutcome.timedOut).1 =
      "ERROR: Execution timed out after 5 minutes" ∧
    (Director.run_execution_command (some "old output") ExecOutcome.timedOut).2 =
      some "old output" ∧
    some (Director.run_execution_command (some "old output") ExecOutcome.timedOut).1 ≠
      (Director.run_execution_command (some "old output") ExecOutcome.timedOut).2 ∧
    StrContains
      (Director.create_prompt
        { prompt := "task", coder_model := "m", evaluator_model := "m",
          max_iterations := 3, execution_command := "cmd",
          context_editable := [], context_read_only := [],
          evaluator := "pytest", log_file := "log" }
        (Director.run_execution_command (some "old output") ExecOutcome.timedOut).2
        1 (some { success := false, feedback := some "fix it" }))
      "old output" ∧
    ¬ StrContains
      (Director.create_prompt
        { prompt := "task", coder_model := "m", evaluator_model := "m",
          max_iterations := 3, execution_command := "cmd",
          context_editable := [], context_read_only := [],
          evaluator := "pytest", log_file := "log" }
        (Director.run_execution_command (some "old output") ExecOutcome.timedOut).2
        1 (some { success := false, feedback := some "fix it" }))
      "ERROR:" := by
  refine ⟨rfl, rfl, by decide, by decide, by decide⟩

/-- C5 (amended): in `Director`, only the output of a completed execution is
both returned and stored in `last_execution_output`; the timeout / failure
sentinels are returned to the evaluator but leave the stored output
unchanged.  In `WorkflowAgent`, every output — sentinels included — is
stored verbatim as `deps.last_execution_output`. -/
theorem c5_output_storage_amended (last : Option String)
    (deps : WorkflowDependencies) (out err : String) (code : Int)
    (msg : String) (o : ExecOutcome) :
    (Director.run_execution_command last (.completed out err code) =
      (out ++ err, some (out ++ err))) ∧
    ((Director.run_execution_command last .timedOut).2 = last) ∧
    ((Director.run_execution_command last (.failed msg)).2 = last) ∧
    ((WorkflowAgent.run_execution_command deps o).2.last_execution_output =
      (WorkflowAgent.run_execution_command deps o).1) := by
  refine ⟨rfl, rfl, rfl, ?_⟩
  cases o <;> rfl

/-- C6 (counterexample): the `WorkflowAgent` prompt builder does not return
the raw task prompt verbatim at iteration 0 — its system prompt always
carries the workflow preamble; and the `Director` prompt builder emits no
final-attempt emphasis at the last iteration (its last-iteration prompt for
this descriptor contains no `"FINAL"`/`"final"` marker at all, only the
generic attempts-remaining count). -/
theorem c6_prompt_builder_counterexample :
    WorkflowAgent.coder_system_prompt
      { config :=
          { name := "wf", prompt := "do the task", coder_model := "m",
            evaluator_model := "m", max_iterations := 3,
            execution_command := "pytest", context_editable := [],
            context_read_only := [], evaluator := "structured",
            log_file := "log" },
        current_iteration := 0, last_execution_output := "",
        last_evaluation := none } ≠ "do the task" ∧
    ¬ StrContains
      (strLower (Director.create_prompt
        { prompt := "do the task", coder_model := "m", evaluator_model := "m",
          max_iterations := 3, execution_command := "pytest",
          context_editable := [], context_read_only := [],
          evaluator := "pytest", log_file := "log" }
        (some "1 failed") 2
        (some { success := false, feedback := some "fix the test" })))
      "final" := by
  refine ⟨by decide, by decide⟩

/-- C6 (amended): at iteration 0 `Director.create_prompt` returns the raw
task prompt verbatim, and for `k > 0` it embeds the original prompt, the
*untruncated* previous execution output, the previous feedback, and the
attempts-remaining count, with no final-attempt clause.  The
`WorkflowAgent` system prompt always carries a workflow preamble; for
`k > 0` with a previous evaluation it embeds the previous output truncated
to 2000 characters and the evaluation feedback, and appends the
final-attempt emphasis exactly when `k = max_iterations - 1`. -/
theorem c6_prompt_builder_amended (cfg : DirectorConfig) (wcfg : WorkflowConfig)
    (lo : Option String) (k : Nat) (ev : EvaluationResult) (out : String)
    (e : StructuredEvaluation) (oev : Option EvaluationResult) :
    (Director.create_prompt cfg lo 0 oev = cfg.prompt) ∧
    (StrContains (Director.create_prompt cfg lo (k+1) (some ev)) cfg.prompt ∧
     StrContains (Director.create_prompt cfg lo (k+1) (some ev)) (lo.getD "") ∧
     StrContains (Director.create_prompt cfg lo (k+1) (some ev))
       (feedbackStr ev.feedback) ∧
     StrContains (Director.create_prompt cfg lo (k+1) (some ev))
       ("You have " ++ toString (cfg.max_iterations - (k+1)) ++
         " attempts remaining")) ∧
    (StrContains (WorkflowAgent.coder_system_prompt ⟨wcfg, k+1, out, some e⟩)
       (strTake out 2000) ∧
     StrContains (WorkflowAgent.coder_system_prompt ⟨wcfg, k+1, out, some e⟩)
       e.feedback ∧
     WorkflowAgent.coder_system_prompt ⟨wcfg, k+1, out, some e⟩ =
       WorkflowAgent.base_prompt wcfg ++
       WorkflowAgent.iteration_context_core ⟨wcfg, k+1, out, some e⟩ e ++
       (if ((k : Int) + 1) = (wcfg.max_iterations : Int) - 1 then
         WorkflowAgent.finalAttemptClause
       else "")) := by
  refine ⟨by simp [Director.create_prompt], ⟨?_, ?_, ?_, ?_⟩, ⟨?_, ?_, ?_⟩⟩
  · exact strContains_build
      (("\n# Task Iteration ").data ++ (toString (k+1+1)).data ++
        ("\n\n## Original Task Specification\n").data)
      (("\n\n## Previous Execution Output\n```\n").data ++ (lo.getD "").data ++
        ("\n```\n\n## Feedback from Previous Attempt\n").data ++
        (feedbackStr ev.feedback).data ++
        ("\n\n## Instructions\nPlease address the feedback above and make the necessary changes to solve the task.\nYou have ").data ++
        (toString (cfg.max_iterations - (k+1))).data ++
        (" attempts remaining.\n\nRemember to focus on passing the execution command: `").data ++
        cfg.execution_command.data ++ ("`\n").data)
      (by simp [Director.create_prompt])
  · exact strContains_build
      (("\n# Task Iteration ").data ++ (toString (k+1+1)).data ++
        ("\n\n## Original Task Specification\n").data ++ cfg.prompt.data ++
        ("\n\n## Previous Execution Output\n```\n").data)
      (("\n```\n\n## Feedback from Previous Attempt\n").data ++
        (feedbackStr ev.feedback).data ++
        ("\n\n## Instructions\nPlease address the feedback above and make the necessary changes to solve the task.\nYou have ").data ++
        (toString (cfg.max_iterations - (k+1))).data ++
        (" attempts remaining.\n\nRemember to focus on passing the execution command: `").data ++
        cfg.execution_command.data ++ ("`\n").data)
      (by simp [Director.create_prompt])
  · exact strContains_build
      (("\n# Task Iteration ").data ++ (toString (k+1+1)).data ++
        ("\n\n## Original Task Specification\n").data ++ cfg.prompt.data ++
        ("\n\n## Previous Execution Output\n```\n").data ++ (lo.getD "").data ++
        ("\n```\n\n## Feedback from Previous Attempt\n").data)
      (("\n\n## Instructions\nPlease address the feedback above and make the necessary changes to solve the task.\nYou have ").data ++
        (toString (cfg.max_iterations - (k+1))).data ++
        (" attempts remaining.\n\nRemember to focus on passing the execution command: `").data ++
        cfg.execution_command.data ++ ("`\n").data)
      (by simp [Director.create_prompt])
  · exact strContains_build
      (("\n# Task Iteration ").data ++ (toString (k+1+1)).data ++
        ("\n\n## Original Task Specification\n").data ++ cfg.prompt.data ++
        ("\n\n## Previous Execution Output\n```\n").data ++ (lo.getD "").data ++
        ("\n```\n\n## Feedback from Previous Attempt\n").data ++
        (feedbackStr ev.feedback).data ++
        ("\n\n## Instructions\nPlease address the feedback above and make the necessary changes to solve the task.\n").data)
      ((".\n\nRemember to focus on passing the execution command: `").data ++
        cfg.execution_command.data ++ ("`\n").data)
      (by
        have h5 : ("\n\n## Instructions\nPlease address the feedback above and make the necessary changes to solve the task.\nYou have " : String).data =
            ("\n\n## Instructions\nPlease address the feedback above and make the necessary changes to solve the task.\n" : String).data ++
            ("You have " : String).data := by decide
        have h6 : (" attempts remaining.\n\nRemember to focus on passing the execution command: `" : String).data =
            (" attempts remaining" : String).data ++
            (".\n\nRemember to focus on passing the execution command: `" : String).data := by decide
        simp [Director.create_prompt, h5, h6])
  · exact strContains_build
      ((WorkflowAgent.base_prompt wcfg).data ++
        ("\n## Previous Iteration Results (Iteration ").data ++
        (toString (k+1)).data ++ ("/").data ++
        (toString wcfg.max_iterations).data ++
        (")\n\n### Execution Output\n```\n").data)
      ((if out.data.length > 2000 then "..." else "").data ++
        ("\n```\n\n### Evaluation Feedback\nSuccess: ").data ++
        (if e.success then "✅" else "❌").data ++
        ("\nTask Completion: ").data ++ (formatPercent1 e.task_completion).data ++
        ("%").data ++ ("\nSecurity: ").data ++
        e.security_check.risk_level.upper.data ++ (" risk").data ++
        ("\nFeedback: ").data ++ e.feedback.data ++
        ("\n\n### Issues To Address\n").data ++
        (if !e.security_check.passed then
          WorkflowAgent.format_list e.security_check.issues
        else "No security issues found.").data ++
        ("\n\n### Next Steps\n").data ++
        (WorkflowAgent.format_list e.next_steps).data ++ ("\n").data ++
        (if ((k+1 : Nat) : Int) = (wcfg.max_iterations : Int) - 1 then
          WorkflowAgent.finalAttemptClause
        else "").data)
      (by simp [WorkflowAgent.coder_system_prompt,
            WorkflowAgent.iteration_context_core])
  · exact strContains_build
      ((WorkflowAgent.base_prompt wcfg).data ++
        ("\n## Previous Iteration Results (Iteration ").data ++
        (toString (k+1)).data ++ ("/").data ++
        (toString wcfg.max_iterations).data ++
        (")\n\n### Execution Output\n```\n").data ++
        (strTake out 2000).data ++
        (if out.data.length > 2000 then "..." else "").data ++
        ("\n```\n\n### Evaluation Feedback\nSuccess: ").data ++
        (if e.success then "✅" else "❌").data ++
        ("\nTask Completion: ").data ++ (formatPercent1 e.task_completion).data ++
        ("%").data ++ ("\nSecurity: ").data ++
        e.security_check.risk_level.upper.data ++ (" risk").data ++
        ("\nFeedback: ").data)
      (("\n\n### Issues To Address\n").data ++
        (if !e.security_check.passed then
          WorkflowAgent.format_list e.security_check.issues
        else "No security issues found.").data ++
        ("\n\n### Next Steps\n").data ++
        (WorkflowAgent.format_list e.next_steps).data ++ ("\n").data ++
        (if ((k+1 : Nat) : Int) = (wcfg.max_iterations : Int) - 1 then
          WorkflowAgent.finalAttemptClause
        else "").data)
      (by simp [WorkflowAgent.coder_system_prompt,
            WorkflowAgent.iteration_context_core])
  · show WorkflowAgent.base_prompt wcfg ++ _ = _
    have : ((k+1 : Nat) : Int) = (k : Int) + 1 := by push_cast; ring
    simp [WorkflowAgent.coder_system_prompt, this, String.append_assoc]

/-! ## The Director run loop (`director.py` lines 593-638) -/

/-- `Director.execute_ai_code` (director.py lines 238-265): runs the aider
coder with the given prompt; any exception is caught, logged, and turned
into `False`.  The coder call itself is the `coderOutcome` oracle value
(`.error` = the call raised). -/
def Director.execute_ai_code (coderOutcome : Except String Unit) : Bool :=
  match coderOutcome with
  | .ok _ => true
  | .error _ => false

/-- Observable trace of one `Director.direct` run: how many loop iterations
were entered, how many coder / executor / evaluator / failure-analyzer
invocations happened, the returned boolean, and the final mutable state.
`director.py` defines no failure analyzer and `direct` calls none, so every
construction below records `analyzerCalls := 0`. -/
structure DirectorTrace where
  iters : Nat
  coderCalls : Nat
  execCalls : Nat
  evalCalls : Nat
  analyzerCalls : Nat
  success : Bool
  lastExecutionOutput : Option String
  evaluation : Option EvaluationResult
  deriving Repr, DecidableEq

/-- The `for iteration in range(max_iterations)` loop of `Director.direct`
(director.py lines 607-631), with the external calls supplied as oracles
indexed by iteration: `coder i prompt` is the aider invocation,
`execO i` the subprocess outcome, `evalO i output` the evaluator verdict. -/
def Director.directLoop (cfg : DirectorConfig)
    (coder : Nat → String → Except String Unit)
    (execO : Nat → ExecOutcome)
    (evalO : Nat → String → EvaluationResult) :
    Nat → Nat → Option String → Option EvaluationResult → DirectorTrace
  | 0, _, lastOut, evaluation =>
    { iters := 0, coderCalls := 0, execCalls := 0, evalCalls := 0,
      analyzerCalls := 0, success := false,
      lastExecutionOutput := lastOut, evaluation := evaluation }
  | fuel+1, i, lastOut, evaluation =>
    let prompt := Director.create_prompt cfg lastOut i evaluation
    if Director.execute_ai_code (coder i prompt) then
      let r := Director.run_execution_command lastOut (execO i)
      let ev := evalO i r.1
      if ev.success then
        { iters := 1, coderCalls := 1, execCalls := 1, evalCalls := 1,
          analyzerCalls := 0, success := true,
          lastExecutionOutput := r.2, evaluation := some ev }
      else
        let t := Director.directLoop cfg coder execO evalO fuel (i+1) r.2 (some ev)
        { iters := t.iters + 1, coderCalls := t.coderCalls + 1,
          execCalls := t.execCalls + 1, evalCalls := t.evalCalls + 1,
          analyzerCalls := 0, success := t.success,
          lastExecutionOutput := t.lastExecutionOutput,
          evaluation := t.evaluation }
    else
      { iters := 1, coderCalls := 1, execCalls := 0, evalCalls := 0,
        analyzerCalls := 0, success := false,
        lastExecutionOutput := lastOut, evaluation := evaluation }

/-- `Director.direct` (director.py lines 593-638). -/
def Director.direct (cfg : DirectorConfig)
    (coder : Nat → String → Except String Unit)
    (execO : Nat → ExecOutcome)
    (evalO : Nat → String → EvaluationResult) : DirectorTrace :=
  Director.directLoop cfg coder execO evalO cfg.max_iterations 0 none none

/-! ## The WorkflowAgent run loop (`agent.py` lines 344-492) -/

/-- `evaluator_system_prompt` (agent.py lines 145-184). -/
def WorkflowAgent.evaluator_system_prompt (deps : WorkflowDependencies) : String :=
  "\n# AI Developer Workflow Evaluator\n\nYou are an expert evaluator for AI Developer Workflows. Your job is to provide detailed,\nstructured feedback on the results of workflow execution.\n\n## Task Description\n" ++
  deps.config.prompt ++
  "\n\n## Execution Command\n```\n" ++ deps.config.execution_command ++
  "\n```\n\n## Execution Output\n```\n" ++ deps.last_execution_output ++
  "\n```\n\n## Evaluation Guidelines\n1. Assess success objectively based on the execution output\n2. Provide a completion percentage (0.0 to 1.0) representing how much of the task was completed\n3. Check for security issues in the changes made\n4. Analyze the test results if present in the output\n5. Summarize all changes made\n6. Provide actionable feedback and next steps\n\nYour evaluation will be used to guide further iterations of this workflow.\nIteration: " ++
  toString (deps.current_iteration + 1) ++ "/" ++ toString deps.config.max_iterations ++
  "\n\nYou MUST provide your response in the structured format expected by the system.\n"

/-- `WorkflowAgent.analyze_failure` (agent.py lines 344-415): runs the
failure-analysis agent (the oracle outcome; `.error` = the call raised) and
overrides `logs_location` with the known log path (line 410) regardless of
what the model returned for it. -/
def WorkflowAgent.analyze_failure (deps : WorkflowDependencies)
    (analyzerOutcome : Except String FailureAnalysis) :
    Except String FailureAnalysis :=
  match analyzerOutcome with
  | .ok fa => .ok { fa with logs_location := some deps.config.log_file }
  | .error e => .error e

/-- Result of the `for iteration in range(config.max_iterations)` loop of
`WorkflowAgent.run` (agent.py lines 431-478). -/
structure AgentLoopResult where
  success : Bool
  iters : Nat
  coderCalls : Nat
  execCalls : Nat
  evalCalls : Nat
  deps : WorkflowDependencies
  deriving Repr, DecidableEq

/-- The dependency state after the execution step of one loop iteration:
`current_iteration` is set before the coder runs (line 435), the executor
stores its output (line 339), and line 453 stores it once more. -/
def WorkflowAgent.stepDeps (deps0 : WorkflowDependencies) (i : Nat)
    (o : ExecOutcome) : WorkflowDependencies :=
  let deps1 := { deps0 with current_iteration := i }
  let er := WorkflowAgent.run_execution_command deps1 o
  { er.2 with last_execution_output := er.1 }

/-- The iteration loop of `WorkflowAgent.run` (agent.py lines 431-478).
A coder exception is logged and the iteration *continues* with execution
(lines 445-447); an evaluator exception is logged and the loop moves on to
the next iteration (lines 476-478). -/
def WorkflowAgent.runLoop (coder : Nat → String → Except String Unit)
    (execO : Nat → ExecOutcome)
    (evalO : Nat → String → Except String StructuredEvaluation) :
    Nat → Nat → WorkflowDependencies → AgentLoopResult
  | 0, _, deps => { success := false, iters := 0, coderCalls := 0,
                    execCalls := 0, evalCalls := 0, deps := deps }
  | fuel+1, i, deps0 =>
    -- coder agent run; its outcome does not alter the control flow
    let _coderOutcome := coder i
      (WorkflowAgent.coder_system_prompt { deps0 with current_iteration := i })
    let deps3 := WorkflowAgent.stepDeps deps0 i (execO i)
    match evalO i (WorkflowAgent.evaluator_system_prompt deps3) with
    | .ok evaluation =>
      let deps4 := { deps3 with last_evaluation := some evaluation }
      if evaluation.success then
        { success := true, iters := 1, coderCalls := 1, execCalls := 1,
          evalCalls := 1, deps := deps4 }
      else
        let t := WorkflowAgent.runLoop coder execO evalO fuel (i+1) deps4
        { t with iters := t.iters + 1, coderCalls := t.coderCalls + 1,
                 execCalls := t.execCalls + 1, evalCalls := t.evalCalls + 1 }
    | .error _ =>
      let t := WorkflowAgent.runLoop coder execO evalO fuel (i+1) deps3
      { t with iters := t.iters + 1, coderCalls := t.coderCalls + 1,
               execCalls := t.execCalls + 1, evalCalls := t.evalCalls + 1 }

/-- Observable trace of one `WorkflowAgent.run`: counts of loop iterations
and of coder / executor / evaluator / failure-analyzer invocations, and the
outcome (`.error` = an exception escaped `run`, which happens when
`analyze_failure` raises — the source does not guard that call). -/
structure AgentTrace where
  iters : Nat
  coderCalls : Nat
  execCalls : Nat
  evalCalls : Nat
  analyzerCalls : Nat
  result : Except String Bool
  deps : WorkflowDependencies
  deriving Repr

/-- `WorkflowAgent.run` (agent.py lines 417-492): the iteration loop, then —
if unsuccessful and at least one evaluation was produced — exactly one
failure-analysis call. -/
def WorkflowAgent.run (deps0 : WorkflowDependencies)
    (coder : Nat → String → Except String Unit)
    (execO : Nat → ExecOutcome)
    (evalO : Nat → String → Except String StructuredEvaluation)
    (analyzerOutcome : Except String FailureAnalysis) : AgentTrace :=
  let r := WorkflowAgent.runLoop coder execO evalO deps0.config.max_iterations 0 deps0
  if !r.success && r.deps.last_evaluation.isSome then
    match WorkflowAgent.analyze_failure r.deps analyzerOutcome with
    | .ok _fa =>
      { iters := r.iters, coderCalls := r.coderCalls, execCalls := r.execCalls,
        evalCalls := r.evalCalls, analyzerCalls := 1,
        result := .ok r.success, deps := r.deps }
    | .error e =>
      { iters := r.iters, coderCalls := r.coderCalls, execCalls := r.execCalls,
        evalCalls := r.evalCalls, analyzerCalls := 1,
        result := .error e, deps := r.deps }
  else
    { iters := r.iters, coderCalls := r.coderCalls, execCalls := r.execCalls,
      evalCalls := r.evalCalls, analyzerCalls := 0,
      result := .ok r.success, deps := r.deps }

/-- If the evaluator returns verdicts (no exception) that are failures for
the first `j` iterations after `i` and a success at iteration `i + j`, the
agent loop stops after exactly `j + 1` iterations with success. -/
theorem WorkflowAgent.runLoop_first_success (coder : Nat → String → Except String Unit)
    (execO : Nat → ExecOutcome)
    (evalO : Nat → String → Except String StructuredEvaluation) (j : Nat) :
    ∀ (fuel i : Nat) (d : WorkflowDependencies), j < fuel →
    (∀ t p, t < j → ∃ e, evalO (i+t) p = .ok e ∧ e.success = false) →
    (∀ p, ∃ e, evalO (i+j) p = .ok e ∧ e.success = true) →
    (WorkflowAgent.runLoop coder execO evalO fuel i d).success = true ∧
    (WorkflowAgent.runLoop coder execO evalO fuel i d).iters = j + 1 ∧
    (WorkflowAgent.runLoop coder execO evalO fuel i d).evalCalls = j + 1 := by
  induction j with
  | zero =>
    intro fuel i d hj hfail hsucc
    match fuel, hj with
    | fuel+1, _ =>
      obtain ⟨e, he, hs⟩ := hsucc (WorkflowAgent.evaluator_system_prompt
        (WorkflowAgent.stepDeps d i (execO i)))
      simp only [Nat.add_zero] at he
      rw [WorkflowAgent.runLoop]
      simp [he, hs]
  | succ j ih =>
    intro fuel i d hj hfail hsucc
    match fuel, hj with
    | fuel+1, hj =>
      obtain ⟨e, he, hs⟩ := hfail 0 (WorkflowAgent.evaluator_system_prompt
        (WorkflowAgent.stepDeps d i (execO i))) (Nat.succ_pos j)
      simp only [Nat.add_zero] at he
      have hf' : ∀ t p, t < j → ∃ e, evalO (i+1+t) p = .ok e ∧ e.success = false :=
        fun t p ht => by
          have := hfail (t+1) p (by omega)
          simpa [Nat.add_assoc, Nat.add_comm 1 t] using this
      have hs' : ∀ p, ∃ e, evalO (i+1+j) p = .ok e ∧ e.success = true :=
        fun p => by
          have := hsucc p
          simpa [Nat.add_assoc, Nat.add_comm 1 j] using this
      rw [WorkflowAgent.runLoop]
      simp only [he, hs]
      refine ⟨?_, ?_, ?_⟩
      · exact (ih fuel (i+1) _ (by omega) hf' hs').1
      · simp [(ih fuel (i+1) _ (by omega) hf' hs').2.1]
      · simp [(ih fuel (i+1) _ (by omega) hf' hs').2.2]

/-- If the evaluator returns a failure verdict (no exception) at every
iteration, the agent loop exhausts its fuel: no success, one iteration and
one evaluator call per unit of fuel, and (for positive fuel) a stored last
evaluation at the end. -/
theorem WorkflowAgent.runLoop_all_fail (coder : Nat → String → Except String Unit)
    (execO : Nat → ExecOutcome)
    (evalO : Nat → String → Except String StructuredEvaluation)
    (hfail : ∀ t p, ∃ e, evalO t p = .ok e ∧ e.success = false) :
    ∀ (fuel i : Nat) (d : WorkflowDependencies),
    (WorkflowAgent.runLoop coder execO evalO fuel i d).success = false ∧
    (WorkflowAgent.runLoop coder execO evalO fuel i d).iters = fuel ∧
    (WorkflowAgent.runLoop coder execO evalO fuel i d).evalCalls = fuel ∧
    (0 < fuel →
      (WorkflowAgent.runLoop coder execO evalO fuel i d).deps.last_evaluation.isSome) := by
  intro fuel
  induction fuel with
  | zero => intro i d; simp [WorkflowAgent.runLoop]
  | succ fuel ih =>
    intro i d
    obtain ⟨e, he, hs⟩ := hfail i (WorkflowAgent.evaluator_system_prompt
      (WorkflowAgent.stepDeps d i (execO i)))
    rw [WorkflowAgent.runLoop]
    simp only [he, hs]
    rcases Nat.eq_zero_or_pos fuel with hf | hf
    · subst hf
      simp [WorkflowAgent.runLoop]
    · have ihh := ih (i+1)
        { WorkflowAgent.stepDeps d i (execO i) with last_evaluation := some e }
      refine ⟨by simpa using ihh.1, by simpa using ihh.2.1,
        by simpa using ihh.2.2.1, fun _ => by simpa using ihh.2.2.2 hf⟩

/-! ## Director loop lemmas -/

/-- If the coder succeeds up to iteration `i + j`, the evaluator signals
failure before it and success at it, `Director.direct`'s loop stops after
exactly `j + 1` iterations with success. -/
theorem Director.directLoop_first_success (cfg : DirectorConfig)
    (coder : Nat → String → Except String Unit)
    (execO : Nat → ExecOutcome) (evalO : Nat → String → EvaluationResult)
    (j : Nat) :
    ∀ (fuel i : Nat) (lastOut : Option String) (evaluation : Option EvaluationResult),
    j < fuel →
    (∀ t p, t ≤ j → coder (i+t) p = .ok ()) →
    (∀ t out, t < j → (evalO (i+t) out).success = false) →
    (∀ out, (evalO (i+j) out).success = true) →
    (Director.directLoop cfg coder execO evalO fuel i lastOut evaluation).success = true ∧
    (Director.directLoop cfg coder execO evalO fuel i lastOut evaluation).iters = j + 1 ∧
    (Director.directLoop cfg coder execO evalO fuel i lastOut evaluation).evalCalls = j + 1 := by
  induction j with
  | zero =>
    intro fuel i lastOut evaluation hj hcoder hfail hsucc
    match fuel, hj with
    | fuel+1, _ =>
      have hc := hcoder 0 (Director.create_prompt cfg lastOut i evaluation) (by omega)
      simp only [Nat.add_zero] at hc
      have hs := hsucc (Director.run_execution_command lastOut (execO i)).1
      simp only [Nat.add_zero] at hs
      rw [Director.directLoop]
      simp [hc, hs, Director.execute_ai_code]
  | succ j ih =>
    intro fuel i lastOut evaluation hj hcoder hfail hsucc
    match fuel, hj with
    | fuel+1, hj =>
      have hc := hcoder 0 (Director.create_prompt cfg lastOut i evaluation) (by omega)
      simp only [Nat.add_zero] at hc
      have hf0 := hfail 0 (Director.run_execution_command lastOut (execO i)).1
        (Nat.succ_pos j)
      simp only [Nat.add_zero] at hf0
      have hc' : ∀ t p, t ≤ j → coder (i+1+t) p = .ok () := fun t p ht => by
        have := hcoder (t+1) p (by omega)
        simpa [Nat.add_assoc, Nat.add_comm 1 t] using this
      have hf' : ∀ t out, t < j → (evalO (i+1+t) out).success = false :=
        fun t out ht => by
          have := hfail (t+1) out (by omega)
          simpa [Nat.add_assoc, Nat.add_comm 1 t] using this
      have hs' : ∀ out, (evalO (i+1+j) out).success = true := fun out => by
        have := hsucc out
        simpa [Nat.add_assoc, Nat.add_comm 1 j] using this
      rw [Director.directLoop]
      simp only [hc, hf0, Director.execute_ai_code]
      refine ⟨?_, ?_, ?_⟩
      · exact (ih fuel (i+1) _ _ (by omega) hc' hf' hs').1
      · simp [(ih fuel (i+1) _ _ (by omega) hc' hf' hs').2.1]
      · simp [(ih fuel (i+1) _ _ (by omega) hc' hf' hs').2.2]

/-- If the coder always succeeds and the evaluator always signals failure,
`Director.direct`'s loop exhausts its fuel without success. -/
theorem Director.directLoop_all_fail (cfg : DirectorConfig)
    (coder : Nat → String → Except String Unit)
    (execO : Nat → ExecOutcome) (evalO : Nat → String → EvaluationResult)
    (hcoder : ∀ t p, coder t p = .ok ())
    (hfail : ∀ t out, (evalO t out).success = false) :
    ∀ (fuel i : Nat) (lastOut : Option String) (evaluation : Option EvaluationResult),
    (Director.directLoop cfg coder execO evalO fuel i lastOut evaluation).success = false ∧
    (Director.directLoop cfg coder execO evalO fuel i lastOut evaluation).iters = fuel ∧
    (Director.directLoop cfg coder execO evalO fuel i lastOut evaluation).evalCalls = fuel := by
  intro fuel
  induction fuel with
  | zero => intro i lastOut evaluation; simp [Director.directLoop]
  | succ fuel ih =>
    intro i lastOut evaluation
    rw [Director.directLoop]
    simp only [hcoder, hfail, Director.execute_ai_code]
    have ihh := ih (i+1) (Director.run_execution_command lastOut (execO i)).2
      (some (evalO i (Director.run_execution_command lastOut (execO i)).1))
    refine ⟨by simpa using ihh.1, by simpa using ihh.2.1, by simpa using ihh.2.2⟩

/-- If the coder succeeds before iteration `i + j` and raises at it (with
the evaluator failing before it, so the loop reaches it), the Director loop
breaks at iteration `i + j`: `j + 1` iterations entered, no success, and no
execution or evaluation in the final iteration. -/
theorem Director.directLoop_coder_raises (cfg : DirectorConfig)
    (coder : Nat → String → Except String Unit)
    (execO : Nat → ExecOutcome) (evalO : Nat → String → EvaluationResult)
    (j : Nat) :
    ∀ (fuel i : Nat) (lastOut : Option String) (evaluation : Option EvaluationResult),
    j < fuel →
    (∀ t p, t < j → coder (i+t) p = .ok ()) →
    (∀ t out, t < j → (evalO (i+t) out).success = false) →
    (∀ p, ∃ m, coder (i+j) p = .error m) →
    (Director.directLoop cfg coder execO evalO fuel i lastOut evaluation).success = false ∧
    (Director.directLoop cfg coder execO evalO fuel i lastOut evaluation).iters = j + 1 ∧
    (Director.directLoop cfg coder execO evalO fuel i lastOut evaluation).execCalls = j ∧
    (Director.directLoop cfg coder execO evalO fuel i lastOut evaluation).evalCalls = j := by
  induction j with
  | zero =>
    intro fuel i lastOut evaluation hj hcoder hfail hraise
    match fuel, hj with
    | fuel+1, _ =>
      obtain ⟨m, hm⟩ := hraise (Director.create_prompt cfg lastOut i evaluation)
      simp only [Nat.add_zero] at hm
      rw [Director.directLoop]
      simp [hm, Director.execute_ai_code]
  | succ j ih =>
    intro fuel i lastOut evaluation hj hcoder hfail hraise
    match fuel, hj with
    | fuel+1, hj =>
      have hc := hcoder 0 (Director.create_prompt cfg lastOut i evaluation)
        (Nat.succ_pos j)
      simp only [Nat.add_zero] at hc
      have hf0 := hfail 0 (Director.run_execution_command lastOut (execO i)).1
        (Nat.succ_pos j)
      simp only [Nat.add_zero] at hf0
      have hc' : ∀ t p, t < j → coder (i+1+t) p = .ok () := fun t p ht => by
        have := hcoder (t+1) p (by omega)
        simpa [Nat.add_assoc, Nat.add_comm 1 t] using this
      have hf' : ∀ t out, t < j → (evalO (i+1+t) out).success = false :=
        fun t out ht => by
          have := hfail (t+1) out (by omega)
          simpa [Nat.add_assoc, Nat.add_comm 1 t] using this
      have hr' : ∀ p, ∃ m, coder (i+1+j) p = .error m := fun p => by
        have := hraise p
        simpa [Nat.add_assoc, Nat.add_comm 1 j] using this
      rw [Director.directLoop]
      simp only [hc, hf0, Director.execute_ai_code]
      refine ⟨?_, ?_, ?_, ?_⟩
      · exact (ih fuel (i+1) _ _ (by omega) hc' hf' hr').1
      · simp [(ih fuel (i+1) _ _ (by omega) hc' hf' hr').2.1]
      · simp [(ih fuel (i+1) _ _ (by omega) hc' hf' hr').2.2.1]
      · simp [(ih fuel (i+1) _ _ (by omega) hc' hf' hr').2.2.2]

/-- The agent loop's behaviour does not depend on the coder oracle at all:
coder exceptions (or successes) never alter the control flow or the state
the loop threads. -/
theorem WorkflowAgent.runLoop_coder_independent
    (coder coder' : Nat → String → Except String Unit)
    (execO : Nat → ExecOutcome)
    (evalO : Nat → String → Except String StructuredEvaluation) :
    ∀ (fuel i : Nat) (d : WorkflowDependencies),
    WorkflowAgent.runLoop coder execO evalO fuel i d =
      WorkflowAgent.runLoop coder' execO evalO fuel i d := by
  intro fuel
  induction fuel with
  | zero => intro i d; rfl
  | succ fuel ih =>
    intro i d
    rw [WorkflowAgent.runLoop, WorkflowAgent.runLoop]
    rcases hev : evalO i (WorkflowAgent.evaluator_system_prompt
      (WorkflowAgent.stepDeps d i (execO i))) with e | e
    · simp [hev, ih]
    · simp [hev, ih]

/-- `Director.direct` makes no failure-analyzer invocation on any path:
`director.py` defines no analyzer and its loop calls none. -/
theorem Director.directLoop_analyzerCalls (cfg : DirectorConfig)
    (coder : Nat → String → Except String Unit)
    (execO : Nat → ExecOutcome) (evalO : Nat → String → EvaluationResult) :
    ∀ (fuel i : Nat) (lastOut : Option String)
      (evaluation : Option EvaluationResult),
    (Director.directLoop cfg coder execO evalO fuel i lastOut
      evaluation).analyzerCalls = 0 := by
  intro fuel i lastOut evaluation
  match fuel with
  | 0 => rfl
  | fuel+1 =>
    rw [Director.directLoop]
    by_cases h1 : Director.execute_ai_code
      (coder i (Director.create_prompt cfg lastOut i evaluation))
    · rw [if_pos h1]
      by_cases h2 : (evalO i (Director.run_execution_command lastOut
        (execO i)).1).success
      · rw [if_pos h2]
      · rw [if_neg h2]
    · rw [if_neg h1]

/-- C1 (amended): with `max_iterations = N`, if the evaluator first signals
success at iteration `k ≤ N` (1-based), each run loop performs exactly `k`
iterations and returns success with no failure analysis; if the evaluator
signals failure at every iteration, each run performs exactly `N`
iterations and returns a failure result, after which `WorkflowAgent.run`
invokes the failure analyzer exactly once while `Director.direct` — which
defines no failure analyzer — makes zero analyzer invocations. -/
theorem c1_iteration_counts_amended
    (deps0 : WorkflowDependencies) (cfg : DirectorConfig)
    (coder dcoder : Nat → String → Except String Unit)
    (execO : Nat → ExecOutcome)
    (evalO : Nat → String → Except String StructuredEvaluation)
    (devalO : Nat → String → EvaluationResult)
    (fa : FailureAnalysis) (k N : Nat) :
    (deps0.config.max_iterations = N → 1 ≤ k → k ≤ N →
      (∀ i p, i + 1 < k → ∃ e, evalO i p = .ok e ∧ e.success = false) →
      (∀ p, ∃ e, evalO (k-1) p = .ok e ∧ e.success = true) →
      (WorkflowAgent.run deps0 coder execO evalO (.ok fa)).iters = k ∧
      (WorkflowAgent.run deps0 coder execO evalO (.ok fa)).result = .ok true ∧
      (WorkflowAgent.run deps0 coder execO evalO (.ok fa)).analyzerCalls = 0) ∧
    (deps0.config.max_iterations = N → 1 ≤ N →
      (∀ i p, ∃ e, evalO i p = .ok e ∧ e.success = false) →
      (WorkflowAgent.run deps0 coder execO evalO (.ok fa)).iters = N ∧
      (WorkflowAgent.run deps0 coder execO evalO (.ok fa)).result = .ok false ∧
      (WorkflowAgent.run deps0 coder execO evalO (.ok fa)).analyzerCalls = 1) ∧
    (cfg.max_iterations = N → 1 ≤ k → k ≤ N →
      (∀ t p, dcoder t p = .ok ()) →
      (∀ t out, t + 1 < k → (devalO t out).success = false) →
      (∀ out, (devalO (k-1) out).success = true) →
      (Director.direct cfg dcoder execO devalO).iters = k ∧
      (Director.direct cfg dcoder execO devalO).success = true ∧
      (Director.direct cfg dcoder execO devalO).analyzerCalls = 0) ∧
    (cfg.max_iterations = N →
      (∀ t p, dcoder t p = .ok ()) →
      (∀ t out, (devalO t out).success = false) →
      (Director.direct cfg dcoder execO devalO).iters = N ∧
      (Director.direct cfg dcoder execO devalO).success = false ∧
      (Director.direct cfg dcoder execO devalO).analyzerCalls = 0) := by
  refine ⟨?_, ?_, ?_, ?_⟩
  · intro hN hk1 hkN hfail hsucc
    have hloop := WorkflowAgent.runLoop_first_success coder execO evalO (k-1)
      deps0.config.max_iterations 0 deps0 (by omega)
      (fun t p ht => by simpa using hfail t p (by omega))
      (fun p => by simpa using hsucc p)
    have h1 := hloop.1
    have h2 := hloop.2.1
    refine ⟨?_, ?_, ?_⟩ <;> simp [WorkflowAgent.run, h1, h2] <;> omega
  · intro hN hN1 hfail
    have hloop := WorkflowAgent.runLoop_all_fail coder execO evalO hfail
      deps0.config.max_iterations 0 deps0
    have h1 := hloop.1
    have h2 := hloop.2.1
    have h4 := hloop.2.2.2 (by omega)
    refine ⟨?_, ?_, ?_⟩ <;>
      simp [WorkflowAgent.run, h1, h2, h4, WorkflowAgent.analyze_failure] <;> omega
  · intro hN hk1 hkN hcoder hfail hsucc
    have hloop := Director.directLoop_first_success cfg dcoder execO devalO (k-1)
      cfg.max_iterations 0 none none (by omega)
      (fun t p ht => by simpa using hcoder t p)
      (fun t out ht => by simpa using hfail t out (by omega))
      (fun out => by simpa using hsucc out)
    exact ⟨by simpa [Director.direct, hloop.2.1] using (by omega : k - 1 + 1 = k),
      hloop.1,
      by simpa [Director.direct] using
        Director.directLoop_analyzerCalls cfg dcoder execO devalO
          cfg.max_iterations 0 none none⟩
  · intro hN hcoder hfail
    have hloop := Director.directLoop_all_fail cfg dcoder execO devalO
      (fun t p => hcoder t p) (fun t out => hfail t out)
      cfg.max_iterations 0 none none
    exact ⟨by simpa [Director.direct] using hN ▸ hloop.2.1, hloop.1,
      by simpa [Director.direct] using
        Director.directLoop_analyzerCalls cfg dcoder execO devalO
          cfg.max_iterations 0 none none⟩

/-- A two-iteration Director descriptor used at concrete inputs. -/
def cfgDirectorAllFail : DirectorConfig :=
  { prompt := "p", coder_model := "m", evaluator_model := "m",
    max_iterations := 2, execution_command := "cmd",
    context_editable := [], context_read_only := [],
    evaluator := "default", log_file := "log" }

/-- Witness for C1 at concrete inputs: a two-iteration workflow whose
evaluator succeeds immediately runs one iteration, returns success and
never analyzes failure; one whose evaluator always fails runs both
iterations, analyzes failure once and returns failure; the corresponding
always-failing Director run does both its iterations, fails and makes zero
analyzer invocations. -/
theorem c1_iteration_counts_amended_witness :
    ((WorkflowAgent.run
      { config := { name := "wf", prompt := "p", coder_model := "m",
                    evaluator_model := "m", max_iterations := 2,
                    execution_command := "cmd", context_editable := [],
                    context_read_only := [], evaluator := "structured",
                    log_file := "log" },
        current_iteration := 0, last_execution_output := "",
        last_evaluation := none }
      (fun _ _ => .ok ()) (fun _ => .completed "out" "" 0)
      (fun _ _ => .ok
        { success := true, task_completion := ⟨1, 0⟩,
          security_check := { passed := true, issues := [], risk_level := .low,
                              recommendations := [] },
          test_results := none, changeset := { changes := [], summary := "" },
          feedback := "ok", next_steps := [] })
      (.ok { root_causes := [], affected_files := [], suggested_fixes := [],
             logs_location := none })).iters = 1 ∧
     (WorkflowAgent.run
      { config := { name := "wf", prompt := "p", coder_model := "m",
                    evaluator_model := "m", max_iterations := 2,
                    execution_command := "cmd", context_editable := [],
                    context_read_only := [], evaluator := "structured",
                    log_file := "log" },
        current_iteration := 0, last_execution_output := "",
        last_evaluation := none }
      (fun _ _ => .ok ()) (fun _ => .completed "out" "" 0)
      (fun _ _ => .ok
        { success := true, task_completion := ⟨1, 0⟩,
          security_check := { passed := true, issues := [], risk_level := .low,
                              recommendations := [] },
          test_results := none, changeset := { changes := [], summary := "" },
          feedback := "ok", next_steps := [] })
      (.ok { root_causes := [], affected_files := [], suggested_fixes := [],
             logs_location := none })).analyzerCalls = 0) ∧
    ((WorkflowAgent.run
      { config := { name := "wf", prompt := "p", coder_model := "m",
                    evaluator_model := "m", max_iterations := 2,
                    execution_command := "cmd", context_editable := [],
                    context_read_only := [], evaluator := "structured",
                    log_file := "log" },
        current_iteration := 0, last_execution_output := "",
        last_evaluation := none }
      (fun _ _ => .ok ()) (fun _ => .completed "out" "" 0)
      (fun _ _ => .ok
        { success := false, task_completion := ⟨0, 0⟩,
          security_check := { passed := true, issues := [], risk_level := .low,
                              recommendations := [] },
          test_results := none, changeset := { changes := [], summary := "" },
          feedback := "no", next_steps := [] })
      (.ok { root_causes := [], affected_files := [], suggested_fixes := [],
             logs_location := none })).iters = 2 ∧
     (WorkflowAgent.run
      { config := { name := "wf", prompt := "p", coder_model := "m",
                    evaluator_model := "m", max_iterations := 2,
                    execution_command := "cmd", context_editable := [],
                    context_read_only := [], evaluator := "structured",
                    log_file := "log" },
        current_iteration := 0, last_execution_output := "",
        last_evaluation := none }
      (fun _ _ => .ok ()) (fun _ => .completed "out" "" 0)
      (fun _ _ => .ok
        { success := false, task_completion := ⟨0, 0⟩,
          security_check := { passed := true, issues := [], risk_level := .low,
                              recommendations := [] },
          test_results := none, changeset := { changes := [], summary := "" },
          feedback := "no", next_steps := [] })
      (.ok { root_causes := [], affected_files := [], suggested_fixes := [],
             logs_location := none })).analyzerCalls = 1) ∧
    ((Director.direct cfgDirectorAllFail (fun _ _ => .ok ())
        (fun _ => .completed "out" "" 0)
        (fun _ _ => { success := false, feedback := none })).iters = 2 ∧
     (Director.direct cfgDirectorAllFail (fun _ _ => .ok ())
        (fun _ => .completed "out" "" 0)
        (fun _ _ => { success := false, feedback := none })).success = false ∧
     (Director.direct cfgDirectorAllFail (fun _ _ => .ok ())
        (fun _ => .completed "out" "" 0)
        (fun _ _ => { success := false, feedback := none })).analyzerCalls = 0) := by
  refine ⟨?_, ?_, ?_⟩
  · have h := (c1_iteration_counts_amended
      { config := { name := "wf", prompt := "p", coder_model := "m",
                    evaluator_model := "m", max_iterations := 2,
                    execution_command := "cmd", context_editable := [],
                    context_read_only := [], evaluator := "structured",
                    log_file := "log" },
        current_iteration := 0, last_execution_output := "",
        last_evaluation := none }
      { prompt := "p", coder_model := "m", evaluator_model := "m",
        max_iterations := 2, execution_command := "cmd",
        context_editable := [], context_read_only := [],
        evaluator := "default", log_file := "log" }
      (fun _ _ => .ok ()) (fun _ _ => .ok ())
      (fun _ => .completed "out" "" 0)
      (fun _ _ => .ok
        { success := true, task_completion := ⟨1, 0⟩,
          security_check := { passed := true, issues := [], risk_level := .low,
                              recommendations := [] },
          test_results := none, changeset := { changes := [], summary := "" },
          feedback := "ok", next_steps := [] })
      (fun _ _ => { success := true, feedback := none })
      { root_causes := [], affected_files := [], suggested_fixes := [],
        logs_location := none } 1 2).1
      rfl (by omega) (by omega)
      (fun i p hip => absurd hip (by omega))
      (fun p => ⟨_, rfl, rfl⟩)
    exact ⟨h.1, h.2.2⟩
  · have h := (c1_iteration_counts_amended
      { config := { name := "wf", prompt := "p", coder_model := "m",
                    evaluator_model := "m", max_iterations := 2,
                    execution_command := "cmd", context_editable := [],
                    context_read_only := [], evaluator := "structured",
                    log_file := "log" },
        current_iteration := 0, last_execution_output := "",
        last_evaluation := none }
      { prompt := "p", coder_model := "m", evaluator_model := "m",
        max_iterations := 2, execution_command := "cmd",
        context_editable := [], context_read_only := [],
        evaluator := "default", log_file := "log" }
      (fun _ _ => .ok ()) (fun _ _ => .ok ())
      (fun _ => .completed "out" "" 0)
      (fun _ _ => .ok
        { success := false, task_completion := ⟨0, 0⟩,
          security_check := { passed := true, issues := [], risk_level := .low,
                              recommendations := [] },
          test_results := none, changeset := { changes := [], summary := "" },
          feedback := "no", next_steps := [] })
      (fun _ _ => { success := false, feedback := none })
      { root_causes := [], affected_files := [], suggested_fixes := [],
        logs_location := none } 1 2).2.1
      rfl (by omega)
      (fun i p => ⟨_, rfl, rfl⟩)
    exact ⟨h.1, h.2.2⟩
  · exact (c1_iteration_counts_amended
      { config := { name := "wf", prompt := "p", coder_model := "m",
                    evaluator_model := "m", max_iterations := 2,
                    execution_command := "cmd", context_editable := [],
                    context_read_only := [], evaluator := "structured",
                    log_file := "log" },
        current_iteration := 0, last_execution_output := "",
        last_evaluation := none }
      cfgDirectorAllFail
      (fun _ _ => .ok ()) (fun _ _ => .ok ())
      (fun _ => .completed "out" "" 0)
      (fun _ _ => .ok
        { success := false, task_completion := ⟨0, 0⟩,
          security_check := { passed := true, issues := [], risk_level := .low,
                              recommendations := [] },
          test_results := none, changeset := { changes := [], summary := "" },
          feedback := "no", next_steps := [] })
      (fun _ _ => { success := false, feedback := none })
      { root_causes := [], affected_files := [], suggested_fixes := [],
        logs_location := none } 1 2).2.2.2
      rfl (fun _ _ => rfl) (fun _ _ => rfl)

/-- C1 (counterexample): `Director.direct` — one of the claim's two cited
run loops — contains no FailureAnalyzer at all.  With an always-succeeding
coder and an always-failing evaluator, the Director run performs exactly
`max_iterations` iterations and returns a failure result, but makes *zero*
failure-analyzer invocations — not the exactly one the claim asserts. -/
theorem c1_analyzer_counterexample :
    (Director.direct cfgDirectorAllFail (fun _ _ => .ok ())
       (fun _ => .completed "out" "" 0)
       (fun _ _ => { success := false, feedback := none })).iters = 2 ∧
    (Director.direct cfgDirectorAllFail (fun _ _ => .ok ())
       (fun _ => .completed "out" "" 0)
       (fun _ _ => { success := false, feedback := none })).success = false ∧
    (Director.direct cfgDirectorAllFail (fun _ _ => .ok ())
       (fun _ => .completed "out" "" 0)
       (fun _ _ => { success := false, feedback := none })).analyzerCalls = 0 :=
  ⟨rfl, rfl, rfl⟩

/-- C2 (counterexample): in `WorkflowAgent.run`, a coder invocation that
raises does *not* terminate the run: with a coder that always raises, the
iteration still executes the command and evaluates the result, and the run
can even return success. -/
theorem c2_coder_error_counterexample :
    (WorkflowAgent.run
      { config := { name := "wf", prompt := "p", coder_model := "m",
                    evaluator_model := "m", max_iterations := 2,
                    execution_command := "cmd", context_editable := [],
                    context_read_only := [], evaluator := "structured",
                    log_file := "log" },
        current_iteration := 0, last_execution_output := "",
        last_evaluation := none }
      (fun _ _ => .error "coder crashed") (fun _ => .completed "all good" "" 0)
      (fun _ _ => .ok
        { success := true, task_completion := ⟨1, 0⟩,
          security_check := { passed := true, issues := [], risk_level := .low,
                              recommendations := [] },
          test_results := none, changeset := { changes := [], summary := "" },
          feedback := "ok", next_steps := [] })
      (.ok { root_causes := [], affected_files := [], suggested_fixes := [],
             logs_location := none })).result = .ok true ∧
    (WorkflowAgent.run
      { config := { name := "wf", prompt := "p", coder_model := "m",
                    evaluator_model := "m", max_iterations := 2,
                    execution_command := "cmd", context_editable := [],
                    context_read_only := [], evaluator := "structured",
                    log_file := "log" },
        current_iteration := 0, last_execution_output := "",
        last_evaluation := none }
      (fun _ _ => .error "coder crashed") (fun _ => .completed "all good" "" 0)
      (fun _ _ => .ok
        { success := true, task_completion := ⟨1, 0⟩,
          security_check := { passed := true, issues := [], risk_level := .low,
                              recommendations := [] },
          test_results := none, changeset := { changes := [], summary := "" },
          feedback := "ok", next_steps := [] })
      (.ok { root_causes := [], affected_files := [], suggested_fixes := [],
             logs_location := none })).execCalls = 1 ∧
    (WorkflowAgent.run
      { config := { name := "wf", prompt := "p", coder_model := "m",
                    evaluator_model := "m", max_iterations := 2,
                    execution_command := "cmd", context_editable := [],
                    context_read_only := [], evaluator := "structured",
                    log_file := "log" },
        current_iteration := 0, last_execution_output := "",
        last_evaluation := none }
      (fun _ _ => .error "coder crashed") (fun _ => .completed "all good" "" 0)
      (fun _ _ => .ok
        { success := true, task_completion := ⟨1, 0⟩,
          security_check := { passed := true, issues := [], risk_level := .low,
                              recommendations := [] },
          test_results := none, changeset := { changes := [], summary := "" },
          feedback := "ok", next_steps := [] })
      (.ok { root_causes := [], affected_files := [], suggested_fixes := [],
             logs_location := none })).evalCalls = 1 := by
  exact ⟨rfl, rfl, rfl⟩

/-- C2 (amended): the fail-fast policy holds for `Director.direct` — a coder
exception at iteration `j` (with the loop having reached it) logs and ends
the whole run as failed, with no execution or evaluation at iteration `j`
and no further iterations.  In `WorkflowAgent.run` the coder outcome never
influences the run: the trace is identical for any two coder oracles. -/
theorem c2_coder_error_policy_amended (cfg : DirectorConfig)
    (coder : Nat → String → Except String Unit)
    (acoder acoder' : Nat → String → Except String Unit)
    (execO : Nat → ExecOutcome) (devalO : Nat → String → EvaluationResult)
    (evalO : Nat → String → Except String StructuredEvaluation)
    (deps0 : WorkflowDependencies) (fa : Except String FailureAnalysis)
    (j : Nat) :
    (j < cfg.max_iterations →
      (∀ t p, t < j → coder t p = .ok ()) →
      (∀ t out, t < j → (devalO t out).success = false) →
      (∀ p, ∃ m, coder j p = .error m) →
      (Director.direct cfg coder execO devalO).success = false ∧
      (Director.direct cfg coder execO devalO).iters = j + 1 ∧
      (Director.direct cfg coder execO devalO).execCalls = j ∧
      (Director.direct cfg coder execO devalO).evalCalls = j) ∧
    (WorkflowAgent.run deps0 acoder execO evalO fa =
      WorkflowAgent.run deps0 acoder' execO evalO fa) := by
  constructor
  · intro hj hcoder hfail hraise
    exact Director.directLoop_coder_raises cfg coder execO devalO j
      cfg.max_iterations 0 none none hj
      (fun t p ht => by simpa using hcoder t p ht)
      (fun t out ht => by simpa using hfail t out ht)
      (fun p => by simpa using hraise p)
  · unfold WorkflowAgent.run
    rw [WorkflowAgent.runLoop_coder_independent acoder acoder' execO evalO]

/-- Witness for C2 (amended) at concrete inputs: a two-iteration Director
run whose coder raises immediately stops after one iteration with failure
and performs no execution and no evaluation. -/
theorem c2_coder_error_policy_amended_witness :
    (Director.direct
      { prompt := "p", coder_model := "m", evaluator_model := "m",
        max_iterations := 2, execution_command := "cmd",
        context_editable := [], context_read_only := [],
        evaluator := "default", log_file := "log" }
      (fun _ _ => .error "boom") (fun _ => .completed "out" "" 0)
      (fun _ _ => { success := true, feedback := none })).success = false ∧
    (Director.direct
      { prompt := "p", coder_model := "m", evaluator_model := "m",
        max_iterations := 2, execution_command := "cmd",
        context_editable := [], context_read_only := [],
        evaluator := "default", log_file := "log" }
      (fun _ _ => .error "boom") (fun _ => .completed "out" "" 0)
      (fun _ _ => { success := true, feedback := none })).iters = 1 ∧
    (Director.direct
      { prompt := "p", coder_model := "m", evaluator_model := "m",
        max_iterations := 2, execution_command := "cmd",
        context_editable := [], context_read_only := [],
        evaluator := "default", log_file := "log" }
      (fun _ _ => .error "boom") (fun _ => .completed "out" "" 0)
      (fun _ _ => { success := true, feedback := none })).execCalls = 0 ∧
    (Director.direct
      { prompt := "p", coder_model := "m", evaluator_model := "m",
        max_iterations := 2, execution_command := "cmd",
        context_editable := [], context_read_only := [],
        evaluator := "default", log_file := "log" }
      (fun _ _ => .error "boom") (fun _ => .completed "out" "" 0)
      (fun _ _ => { success := true, feedback := none })).evalCalls = 0 := by
  exact (c2_coder_error_policy_amended
    { prompt := "p", coder_model := "m", evaluator_model := "m",
      max_iterations := 2, execution_command := "cmd",
      context_editable := [], context_read_only := [],
      evaluator := "default", log_file := "log" }
    (fun _ _ => .error "boom") (fun _ _ => .ok ()) (fun _ _ => .ok ())
    (fun _ => .completed "out" "" 0)
    (fun _ _ => { success := true, feedback := none })
    (fun _ _ => .error "eval not used")
    { config := { name := "wf", prompt := "p", coder_model := "m",
                  evaluator_model := "m", max_iterations := 2,
                  execution_command := "cmd", context_editable := [],
                  context_read_only := [], evaluator := "structured",
                  log_file := "log" },
      current_iteration := 0, last_execution_output := "",
      last_evaluation := none }
    (.ok { root_causes := [], affected_files := [], suggested_fixes := [],
           logs_location := none }) 0).1
    (by decide)
    (fun t p ht => absurd ht (by omega))
    (fun t out ht => absurd ht (by omega))
    (fun p => ⟨"boom", rfl⟩)

/-! ## Configuration loading and path validation (C4) -/

/-- The path-existence check of `Director.load_config` applied to one
category list (director.py lines 141-145): the first listed path that does
not exist raises `FileNotFoundError`. -/
def checkPathsExist (existsFS : String → Bool) : List String → Except String Unit
  | [] => .ok ()
  | p :: ps =>
    if existsFS p then checkPathsExist existsFS ps
    else .error ("File not found: " ++ p)

/-- The `context_editable` / `context_read_only` validation of
`Director.load_config` (director.py lines 140-145), over a file system
given as an existence predicate. -/
def Director.validate_context_paths (existsFS : String → Bool)
    (context_editable context_read_only : List String) : Except String Unit :=
  match checkPathsExist existsFS context_editable with
  | .error e => .error e
  | .ok _ => checkPathsExist existsFS context_read_only

/-- `Director.__init__` followed by `direct()` (director.py lines 117-121,
645-646): `load_config` runs first, so a path-validation failure propagates
before `setup_llm_client` and before any iteration — the `run` continuation
(carrying all coder/judgment activity) is never invoked. -/
def Director.initThenDirect (existsFS : String → Bool) (cfg : DirectorConfig)
    (run : Unit → DirectorTrace) : Except String DirectorTrace :=
  match Director.validate_context_paths existsFS
      cfg.context_editable cfg.context_read_only with
  | .error e => .error e
  | .ok _ => .ok (run ())

/-- `WorkflowConfig.validate_paths` (models.py lines 101-107).  Despite its
docstring — "Convert string paths to Path objects and validate they exist"
— the body only converts `str` entries to `Path` and returns the list; it
never consults the file system, so it can never fail.  (The `str → Path`
conversion is the identity at this model's level.) -/
def WorkflowConfig.validate_paths (v : List String) : Except String (List String) :=
  .ok v

/-- C4 (code bug): `WorkflowConfig.validate_paths` accepts every path list —
in particular a non-existent editable file — while `Director.load_config`
rejects the same descriptor before any coder or judgment call is made. -/
theorem c4_validate_paths_code_bug (run : Unit → DirectorTrace) :
    (∀ v, WorkflowConfig.validate_paths v = .ok v) ∧
    WorkflowConfig.validate_paths ["/nonexistent/missing.py"] =
      .ok ["/nonexistent/missing.py"] ∧
    Director.validate_context_paths (fun _ => false)
      ["/nonexistent/missing.py"] [] =
      .error "File not found: /nonexistent/missing.py" ∧
    Director.initThenDirect (fun _ => false)
      { prompt := "p", coder_model := "m", evaluator_model := "m",
        max_iterations := 3, execution_command := "cmd",
        context_editable := ["/nonexistent/missing.py"],
        context_read_only := [], evaluator := "default", log_file := "log" }
      run = .error "File not found: /nonexistent/missing.py" :=
  ⟨fun _ => rfl, rfl, rfl, rfl⟩

/-! ## The coder agent's `write_file` tool (C10, agent.py lines 248-278) -/

/-- `pathlib.Path.is_relative_to`: `p` equals `q` or lies below it, i.e.
`q`'s components are a prefix of `p`'s. -/
def PyPath.is_relative_to (p q : PyPath) : Bool :=
  q.isPrefixOf p

/-- The file system as an association of paths to file contents. -/
abbrev FileSystem := List (PyPath × String)

/-- Write (create or overwrite) one file. -/
def FileSystem.write (fs : FileSystem) (p : PyPath) (content : String) :
    FileSystem :=
  match fs with
  | [] => [(p, content)]
  | (q, c) :: rest =>
    if q = p then (q, content) :: rest
    else (q, c) :: FileSystem.write rest p content

/-- Contents of one file, if present. -/
def FileSystem.read? : FileSystem → PyPath → Option String
  | [], _ => none
  | (q, c) :: rest, p => if q = p then some c else FileSystem.read? rest p

/-- Writing one path leaves every other path's contents unchanged. -/
theorem FileSystem.read?_write_ne (fs : FileSystem) (p q : PyPath)
    (c : String) (h : q ≠ p) : (fs.write p c).read? q = fs.read? q := by
  induction fs with
  | nil => simp [FileSystem.write, FileSystem.read?, Ne.symm h]
  | cons hd tl ih =>
    rcases hd with ⟨r, rc⟩
    by_cases hrp : r = p
    · subst hrp
      simp [FileSystem.write, FileSystem.read?, Ne.symm h]
    · simp [FileSystem.write, FileSystem.read?, hrp, ih]

/-- The `write_file` tool of the coder agent (agent.py lines 248-278): a
path that is not equal to or contained under one of the configured
editable paths is rejected with an `ERROR:` string before anything is
written; otherwise the content is written (the write itself may raise,
which the `writeOutcome` oracle reports as `some message`; a raising write
is modelled as leaving the file system unchanged). -/
def WorkflowAgent.write_file (context_editable : List PyPath)
    (fs : FileSystem) (file_path : PyPath) (content : String)
    (writeOutcome : Option String) : String × FileSystem :=
  if !(context_editable.any (fun p => file_path.is_relative_to p)) then
    ("ERROR: " ++ pathStr file_path ++ " is not in the list of editable files",
      fs)
  else
    match writeOutcome with
    | none =>
      ("Successfully wrote to " ++ pathStr file_path, fs.write file_path content)
    | some emsg =>
      ("ERROR: Could not write to file " ++ pathStr file_path ++ ": " ++ emsg, fs)

/-- C10: a `write_file` call whose path is not equal to or under an
editable path returns an `ERROR:`-prefixed string and writes nothing; and
for every call whatsoever, every file outside the editable set keeps its
contents. -/
theorem c10_write_file_frame (context_editable : List PyPath)
    (fs : FileSystem) (file_path : PyPath) (content : String)
    (w : Option String) :
    (context_editable.any (fun p => file_path.is_relative_to p) = false →
      StrStarts
        (WorkflowAgent.write_file context_editable fs file_path content w).1
        "ERROR:" ∧
      (WorkflowAgent.write_file context_editable fs file_path content w).2 = fs) ∧
    (∀ q, (∀ p, p ∈ context_editable → q.is_relative_to p = false) →
      (WorkflowAgent.write_file context_editable fs file_path content w).2.read? q =
        fs.read? q) := by
  constructor
  · intro hno
    refine ⟨?_, ?_⟩
    · have hres : (WorkflowAgent.write_file context_editable fs file_path content w).1 =
          "ERROR: " ++ pathStr file_path ++ " is not in the list of editable files" := by
        simp [WorkflowAgent.write_file, hno]
      show ("ERROR:" : String).data <+: _
      rw [hres, String.data_append, String.data_append]
      exact (by decide : ("ERROR:" : String).data <+: ("ERROR: " : String).data).trans
        ((List.prefix_append _ _).trans (List.prefix_append _ _))
    · simp [WorkflowAgent.write_file, hno]
  · intro q hq
    by_cases hany : context_editable.any (fun p => file_path.is_relative_to p)
    · obtain ⟨p, hp, hrel⟩ := List.any_eq_true.mp hany
      have hqfp : q ≠ file_path := by
        intro he
        subst he
        rw [hq p hp] at hrel
        exact Bool.false_ne_true hrel
      cases w with
      | none =>
        simp only [WorkflowAgent.write_file, hany, Bool.not_true, if_false]
        exact FileSystem.read?_write_ne fs file_path q content hqfp
      | some m => simp [WorkflowAgent.write_file, hany]
    · simp [WorkflowAgent.write_file, Bool.not_eq_true _ ▸ hany]

/-- Witness for C10 at a concrete call: writing `/etc/passwd` with only
`src/app.py` editable is rejected with an `ERROR:` string and leaves the
file system — including the unrelated `README.md` — untouched. -/
theorem c10_write_file_frame_witness :
    (List.any [[ "src", "app.py" ]]
      (fun p => PyPath.is_relative_to ["etc", "passwd"] p) = false ∧
      StrStarts
        (WorkflowAgent.write_file [["src", "app.py"]]
          [(["README.md"], "readme"), (["src", "app.py"], "code")]
          ["etc", "passwd"] "pwned" none).1 "ERROR:" ∧
      (WorkflowAgent.write_file [["src", "app.py"]]
        [(["README.md"], "readme"), (["src", "app.py"], "code")]
        ["etc", "passwd"] "pwned" none).2 =
        [(["README.md"], "readme"), (["src", "app.py"], "code")]) ∧
    (WorkflowAgent.write_file [["src", "app.py"]]
      [(["README.md"], "readme"), (["src", "app.py"], "code")]
      ["etc", "passwd"] "pwned" none).2.read? ["README.md"] =
      FileSystem.read? [(["README.md"], "readme"), (["src", "app.py"], "code")]
        ["README.md"] := by
  refine ⟨⟨by decide, ?_⟩, ?_⟩
  · exact ((c10_write_file_frame [["src", "app.py"]]
      [(["README.md"], "readme"), (["src", "app.py"], "code")]
      ["etc", "passwd"] "pwned" none).1 (by decide))
  · exact ((c10_write_file_frame [["src", "app.py"]]
      [(["README.md"], "readme"), (["src", "app.py"], "code")]
      ["etc", "passwd"] "pwned" none).2 ["README.md"] (by decide))

/-! ## A JSON model (for the structured evaluator and the payload extractor)

`json.dumps` / `json.loads` / pydantic's `.json()` and `parse_raw` are
library code external to the repository.  Modelled from the spec: a JSON
value, a serializer and a parser over it.  Numbers carry the exact decimal
`mantissa / 10 ^ exp` of the `DecimalFloat` model (`exp = 0` renders as an
integer literal); strings escape the quote, backslash and the common
control characters; the serializer emits no insignificant whitespace and
the parser consumes exactly that grammar. -/

inductive Json where
  | null
  | bool (b : Bool)
  | num (mantissa : Int) (exp : Nat)
  | str (s : String)
  | arr (elems : List Json)
  | obj (fields : List (String × Json))
  deriving Repr

/-- The character of a decimal digit. -/
def digitChar : Nat → Char
  | 0 => '0' | 1 => '1' | 2 => '2' | 3 => '3' | 4 => '4'
  | 5 => '5' | 6 => '6' | 7 => '7' | 8 => '8' | 9 => '9'
  | _ => '0'

/-- The value of a decimal digit character. -/
def digitVal (c : Char) : Nat :=
  c.toNat - 48

/-- Little-endian decimal digit extraction, fuel-indexed. -/
def natDigitsAux : Nat → Nat → List Nat
  | 0, _ => []
  | _+1, 0 => []
  | fuel+1, n+1 => (n+1) % 10 :: natDigitsAux fuel ((n+1) / 10)

/-- Decimal digits of `n`, most significant first (empty for `0`). -/
def natDigits (n : Nat) : List Nat :=
  (natDigitsAux n n).reverse

theorem natDigitsAux_eq (fuel : Nat) :
    ∀ n, n ≤ fuel → natDigitsAux fuel n = Nat.digits 10 n := by
  induction fuel with
  | zero =>
    intro n h
    interval_cases n
    simp [natDigitsAux]
  | succ fuel ih =>
    intro n h
    match n with
    | 0 => simp [natDigitsAux]
    | n+1 =>
      rw [natDigitsAux]
      have hdiv : (n+1) / 10 ≤ fuel := by
        have := Nat.div_lt_self (Nat.succ_pos n) (by norm_num : 1 < 10)
        omega
      rw [ih ((n+1)/10) hdiv,
        Nat.digits_def' (by norm_num : 1 < 10) (Nat.succ_pos n)]

theorem natDigits_eq (n : Nat) : natDigits n = (Nat.digits 10 n).reverse := by
  unfold natDigits
  rw [natDigitsAux_eq n n le_rfl]

/-- Decimal notation of `n` (with `"0"` for `0`). -/
def natChars (n : Nat) : List Char :=
  if n = 0 then ['0'] else (natDigits n).map digitChar

/-- Value of a most-significant-first digit list. -/
def valOfDigits (ds : List Nat) : Nat :=
  ds.foldl (fun a d => a * 10 + d) 0

/-- Value of a digit-character list. -/
def valOfChars (cs : List Char) : Nat :=
  cs.foldl (fun a c => a * 10 + digitVal c) 0

theorem digitVal_digitChar {d : Nat} (h : d < 10) :
    digitVal (digitChar d) = d := by
  interval_cases d <;> rfl

theorem isDigit_digitChar {d : Nat} (h : d < 10) :
    (digitChar d).isDigit = true := by
  interval_cases d <;> rfl

theorem natDigits_lt {n : Nat} : ∀ d ∈ natDigits n, d < 10 := by
  intro d hd
  rw [natDigits_eq] at hd
  exact Nat.digits_lt_base (by norm_num) (List.mem_reverse.mp hd)

theorem foldl_digits_reverse (l : List Nat) (a : Nat) :
    l.reverse.foldl (fun a d => a * 10 + d) a =
      a * 10 ^ l.length + Nat.ofDigits 10 l := by
  induction l generalizing a with
  | nil => simp
  | cons d t ih =>
    rw [List.reverse_cons, List.foldl_append, ih]
    simp only [List.foldl_cons, List.foldl_nil, Nat.ofDigits_cons, List.length_cons]
    push_cast
    ring

theorem valOfDigits_natDigits (n : Nat) : valOfDigits (natDigits n) = n := by
  rw [natDigits_eq]
  unfold valOfDigits
  rw [foldl_digits_reverse]
  simp [Nat.ofDigits_digits]

theorem valOfDigits_pad (k : Nat) (l : List Nat) :
    valOfDigits (List.replicate k 0 ++ l) = valOfDigits l := by
  induction k with
  | zero => rfl
  | succ k ih => simpa [List.replicate_succ, valOfDigits] using ih

theorem valOfChars_map_digitChar (ds : List Nat) (h : ∀ d ∈ ds, d < 10) :
    valOfChars (ds.map digitChar) = valOfDigits ds := by
  unfold valOfChars valOfDigits
  rw [List.foldl_map]
  exact List.foldl_ext _ _ 0 fun a d hd => by rw [digitVal_digitChar (h d hd)]

theorem natDigits_length_le {n e : Nat} (h : n < 10 ^ e) :
    (natDigits n).length ≤ e := by
  rcases Nat.eq_zero_or_pos n with h0 | h0
  · subst h0; simp [natDigits_eq]
  · rw [natDigits_eq]
    rw [List.length_reverse, Nat.digits_len 10 n (by norm_num) (by omega)]
    have := (Nat.lt_pow_iff_log_lt (by norm_num : (1:Nat) < 10)
      (by omega : n ≠ 0)).mp h
    omega

/-- JSON escaping of one character. -/
def escChar (c : Char) : List Char :=
  if c = '"' then ['\\', '"']
  else if c = '\\' then ['\\', '\\']
  else if c = '\n' then ['\\', 'n']
  else if c = '\t' then ['\\', 't']
  else if c = '\r' then ['\\', 'r']
  else [c]

/-- JSON escaping of a string body. -/
def escChars (l : List Char) : List Char :=
  (l.map escChar).flatten

/-- JSON unescaping of one escaped character. -/
def unescChar (c : Char) : Option Char :=
  if c = '"' then some '"'
  else if c = '\\' then some '\\'
  else if c = '/' then some '/'
  else if c = 'n' then some '\n'
  else if c = 't' then some '\t'
  else if c = 'r' then some '\r'
  else if c = 'b' then some '\x08'
  else if c = 'f' then some '\x0c'
  else none

/-- Parse a JSON string body up to and including the closing quote,
returning the unescaped characters and the rest of the input. -/
def parseStrBody : List Char → Option (List Char × List Char)
  | [] => none
  | c :: r =>
    if c = '"' then some ([], r)
    else if c = '\\' then
      match r with
      | [] => none
      | e :: r2 =>
        match unescChar e, parseStrBody r2 with
        | some u, some (s, r3) => some (u :: s, r3)
        | _, _ => none
    else
      match parseStrBody r with
      | some (s, r3) => some (c :: s, r3)
      | none => none

theorem parseStrBody_escChars (s : List Char) :
    ∀ rest, parseStrBody (escChars s ++ '"' :: rest) = some (s, rest) := by
  induction s with
  | nil =>
    intro rest
    rw [show escChars [] ++ '"' :: rest = '"' :: rest from rfl, parseStrBody.eq_def]
    simp
  | cons c t ih =>
    intro rest
    have iht := ih rest
    simp only [escChars, List.map_cons, List.flatten_cons, List.append_assoc] at iht ⊢
    by_cases h1 : c = '"'
    · subst h1
      simp [escChar, parseStrBody, unescChar, iht]
    · by_cases h2 : c = '\\'
      · subst h2
        simp [escChar, parseStrBody, unescChar, iht]
      · by_cases h3 : c = '\n'
        · subst h3
          simp [escChar, parseStrBody, unescChar, iht]
        · by_cases h4 : c = '\t'
          · subst h4
            simp [escChar, parseStrBody, unescChar, iht]
          · by_cases h5 : c = '\r'
            · subst h5
              simp [escChar, parseStrBody, unescChar, iht]
            · have he : escChar c = [c] := by
                simp [escChar, h1, h2, h3, h4, h5]
              rw [he, List.singleton_append, parseStrBody.eq_def]
              simp [h1, h2, iht]

/-- Zero-padded digit list of width `w`. -/
def padDigits (w : Nat) (l : List Nat) : List Nat :=
  List.replicate (w - l.length) 0 ++ l

/-- Decimal notation of the integer `m`. -/
def intChars (m : Int) : List Char :=
  (if m < 0 then ['-'] else []) ++ natChars m.natAbs

/-- Decimal rendering of `mantissa / 10 ^ exp`: an integer literal for
`exp = 0`, otherwise a fixed-point literal with exactly `exp` fractional
digits. -/
def renderNumChars (m : Int) (e : Nat) : List Char :=
  if e = 0 then intChars m
  else
    (if m < 0 then ['-'] else []) ++
    natChars (m.natAbs / 10 ^ e) ++
    '.' :: (padDigits e (natDigits (m.natAbs % 10 ^ e))).map digitChar

/-- Parse an unsigned decimal literal: the integer digits, optionally a
point and the fractional digits; the exact value is returned as
`(digits value, number of fractional digits)`. -/
def parseUnsignedNum (l : List Char) : Option ((Nat × Nat) × List Char) :=
  let ds := l.takeWhile Char.isDigit
  let r1 := l.dropWhile Char.isDigit
  if ds.isEmpty then none
  else if r1.head? = some '.' then
    let r2 := r1.tail
    let fs := r2.takeWhile Char.isDigit
    let r3 := r2.dropWhile Char.isDigit
    if fs.isEmpty then none
    else some ((valOfChars ds * 10 ^ fs.length + valOfChars fs, fs.length), r3)
  else
    some ((valOfChars ds, 0), r1)

/-- Parse an optionally signed decimal literal, returning the exact value
as `(mantissa, number of fractional digits)` and the rest of the input. -/
def parseNum (l : List Char) : Option ((Int × Nat) × List Char) :=
  if l.head? = some '-' then
    (parseUnsignedNum l.tail).map (fun p => ((-(p.1.1 : Int), p.1.2), p.2))
  else
    (parseUnsignedNum l).map (fun p => (((p.1.1 : Int), p.1.2), p.2))

/-- What may legally follow a rendered number (so that the digit scan
stops): end of input or a delimiter. -/
def numBoundary : List Char → Prop
  | [] => True
  | c :: _ => c.isDigit = false ∧ c ≠ '.'

theorem natDigits_nil_iff (n : Nat) : natDigits n = [] ↔ n = 0 := by
  rw [natDigits_eq]
  rw [List.reverse_eq_nil_iff, Nat.digits_eq_nil_iff_eq_zero]

theorem natChars_ne_nil (n : Nat) : natChars n ≠ [] := by
  unfold natChars
  split
  · simp
  · rename_i h
    intro hmap
    exact h ((natDigits_nil_iff n).mp (by simpa using hmap))

theorem natChars_all_digit (n : Nat) : ∀ c ∈ natChars n, c.isDigit = true := by
  unfold natChars
  split
  · intro c hc
    simp only [List.mem_singleton] at hc
    subst hc
    rfl
  · intro c hc
    obtain ⟨d, hd, rfl⟩ := List.mem_map.mp hc
    exact isDigit_digitChar (natDigits_lt d hd)

theorem valOfChars_natChars (n : Nat) : valOfChars (natChars n) = n := by
  unfold natChars
  split
  · rename_i h
    subst h
    rfl
  · rw [valOfChars_map_digitChar _ natDigits_lt, valOfDigits_natDigits]

/-- Splitting a digit scan at a non-digit boundary. -/
theorem span_digits (xs rest : List Char) (hall : ∀ c ∈ xs, c.isDigit = true)
    (hrest : ∀ c, rest.head? = some c → c.isDigit = false) :
    (xs ++ rest).takeWhile Char.isDigit = xs ∧
    (xs ++ rest).dropWhile Char.isDigit = rest := by
  constructor
  · rw [List.takeWhile_append_of_pos hall]
    cases rest with
    | nil => simp
    | cons c rs =>
      rw [List.takeWhile_cons, hrest c rfl]
      simp
  · rw [List.dropWhile_append_of_pos hall]
    cases rest with
    | nil => simp
    | cons c rs =>
      rw [List.dropWhile_cons, hrest c rfl]
      simp

theorem parseUnsignedNum_int (n : Nat) (rest : List Char) (hrest : numBoundary rest) :
    parseUnsignedNum (natChars n ++ rest) = some ((n, 0), rest) := by
  have hb : ∀ c, rest.head? = some c → c.isDigit = false := by
    intro c hc
    cases rest with
    | nil => simp at hc
    | cons c0 rs =>
      obtain ⟨h1, _⟩ := hrest
      simp only [List.head?_cons, Option.some.injEq] at hc
      subst hc
      exact h1
  obtain ⟨htake, hdrop⟩ := span_digits (natChars n) rest (natChars_all_digit n) hb
  have hdot : ¬ rest.head? = some '.' := by
    intro hc
    cases rest with
    | nil => simp at hc
    | cons c0 rs =>
      obtain ⟨_, h2⟩ := hrest
      simp only [List.head?_cons, Option.some.injEq] at hc
      exact h2 hc
  unfold parseUnsignedNum
  rw [htake, hdrop]
  rw [if_neg (by simpa using natChars_ne_nil n), if_neg hdot,
    valOfChars_natChars]

theorem parseUnsignedNum_dec (n e : Nat) (he : e ≠ 0) (rest : List Char)
    (hrest : numBoundary rest) :
    parseUnsignedNum (natChars (n / 10 ^ e) ++
        '.' :: (padDigits e (natDigits (n % 10 ^ e))).map digitChar ++ rest) =
      some ((n, e), rest) := by
  have hb : ∀ c, rest.head? = some c → c.isDigit = false := by
    intro c hc
    cases rest with
    | nil => simp at hc
    | cons c0 rs =>
      obtain ⟨h1, _⟩ := hrest
      simp only [List.head?_cons, Option.some.injEq] at hc
      subst hc
      exact h1
  have hpadlt : ∀ d ∈ padDigits e (natDigits (n % 10 ^ e)), d < 10 := by
    intro d hd
    rcases List.mem_append.mp hd with hd | hd
    · have := List.eq_of_mem_replicate hd
      omega
    · exact natDigits_lt d hd
  have hfall : ∀ c ∈ (padDigits e (natDigits (n % 10 ^ e))).map digitChar,
      c.isDigit = true := by
    intro c hc
    obtain ⟨d, hd, rfl⟩ := List.mem_map.mp hc
    exact isDigit_digitChar (hpadlt d hd)
  have hlen : (padDigits e (natDigits (n % 10 ^ e))).length = e := by
    unfold padDigits
    have : (natDigits (n % 10 ^ e)).length ≤ e :=
      natDigits_length_le (Nat.mod_lt _ (Nat.pos_pow_of_pos e (by norm_num)))
    simp only [List.length_append, List.length_replicate]
    omega
  have hfval : valOfChars ((padDigits e (natDigits (n % 10 ^ e))).map digitChar) =
      n % 10 ^ e := by
    rw [valOfChars_map_digitChar _ hpadlt]
    unfold padDigits
    rw [valOfDigits_pad, valOfDigits_natDigits]
  obtain ⟨htake1, hdrop1⟩ := span_digits (natChars (n / 10 ^ e))
    ('.' :: (padDigits e (natDigits (n % 10 ^ e))).map digitChar ++ rest)
    (natChars_all_digit _) (by
      intro c hc
      simp only [List.cons_append, List.head?_cons, Option.some.injEq] at hc
      rw [← hc]
      decide)
  obtain ⟨htake2, hdrop2⟩ := span_digits
    ((padDigits e (natDigits (n % 10 ^ e))).map digitChar) rest hfall hb
  have hFlen : ((padDigits e (natDigits (n % 10 ^ e))).map digitChar).length = e := by
    rw [List.length_map]
    exact hlen
  have hFne : ¬ ((padDigits e (natDigits (n % 10 ^ e))).map digitChar).isEmpty = true := by
    rw [List.isEmpty_iff]
    intro h0
    rw [h0] at hFlen
    simp at hFlen
    exact he (by omega)
  unfold parseUnsignedNum
  rw [← List.append_assoc] at htake1 hdrop1
  simp only [htake1, hdrop1]
  rw [if_neg (by simpa using natChars_ne_nil (n / 10 ^ e))]
  simp only [List.cons_append, List.head?_cons, List.tail_cons]
  simp only [Option.some.injEq, if_true]
  simp only [htake2, hdrop2]
  rw [if_neg hFne]
  rw [valOfChars_natChars, hfval, hFlen]
  rw [Nat.mul_comm, Nat.div_add_mod]

/-- Round trip for the number renderer: parsing a rendered number with a
legal boundary recovers the mantissa and exponent exactly. -/
theorem parseNum_renderNum (m : Int) (e : Nat) (rest : List Char)
    (hrest : numBoundary rest) :
    parseNum (renderNumChars m e ++ rest) = some ((m, e), rest) := by
  by_cases he : e = 0
  · subst he
    obtain ⟨c0, t0, hct, hc0⟩ :
        ∃ c t, natChars m.natAbs = c :: t ∧ c.isDigit = true := by
      rcases hnc : natChars m.natAbs with _ | ⟨c, t⟩
      · exact absurd hnc (natChars_ne_nil _)
      · exact ⟨c, t, rfl, natChars_all_digit _ c (hnc ▸ List.mem_cons_self c t)⟩
    have hint := parseUnsignedNum_int m.natAbs rest hrest
    by_cases hm : m < 0
    · have hshape : renderNumChars m 0 ++ rest = '-' :: (natChars m.natAbs ++ rest) := by
        unfold renderNumChars intChars
        rw [if_pos rfl, if_pos hm]
        first
        | rfl
        | simp
      rw [hshape]
      unfold parseNum
      rw [List.head?_cons, if_pos rfl, List.tail_cons, hint]
      simp only [Option.map_some']
      have hmn : -((m.natAbs : Int)) = m := by omega
      rw [hmn]
    · have hshape : renderNumChars m 0 ++ rest = natChars m.natAbs ++ rest := by
        unfold renderNumChars intChars
        rw [if_pos rfl, if_neg hm]
        first
        | rfl
        | simp
      have hneg : ¬ ((natChars m.natAbs ++ rest).head? = some '-') := by
        rw [hct]
        simp only [List.cons_append, List.head?_cons, Option.some.injEq]
        intro hcc
        rw [hcc] at hc0
        exact absurd hc0 (by decide)
      rw [hshape]
      unfold parseNum
      rw [if_neg hneg, hint]
      simp only [Option.map_some']
      have hmn : ((m.natAbs : Int)) = m := by omega
      rw [hmn]
  · obtain ⟨c0, t0, hct, hc0⟩ :
        ∃ c t, natChars (m.natAbs / 10 ^ e) = c :: t ∧ c.isDigit = true := by
      rcases hnc : natChars (m.natAbs / 10 ^ e) with _ | ⟨c, t⟩
      · exact absurd hnc (natChars_ne_nil _)
      · exact ⟨c, t, rfl, natChars_all_digit _ c (hnc ▸ List.mem_cons_self c t)⟩
    have hd := parseUnsignedNum_dec m.natAbs e he rest hrest
    by_cases hm : m < 0
    · have hshape : renderNumChars m e ++ rest =
          '-' :: (natChars (m.natAbs / 10 ^ e) ++
            '.' :: (padDigits e (natDigits (m.natAbs % 10 ^ e))).map digitChar ++ rest) := by
        unfold renderNumChars
        rw [if_neg he, if_pos hm]
        first
        | rfl
        | simp
      rw [hshape]
      unfold parseNum
      rw [List.head?_cons, if_pos rfl, List.tail_cons, hd]
      simp only [Option.map_some']
      have hmn : -((m.natAbs : Int)) = m := by omega
      rw [hmn]
    · have hshape : renderNumChars m e ++ rest =
          natChars (m.natAbs / 10 ^ e) ++
            '.' :: (padDigits e (natDigits (m.natAbs % 10 ^ e))).map digitChar ++ rest := by
        unfold renderNumChars
        rw [if_neg he, if_neg hm]
        first
        | rfl
        | simp
      have hneg : ¬ ((natChars (m.natAbs / 10 ^ e) ++
          '.' :: (padDigits e (natDigits (m.natAbs % 10 ^ e))).map digitChar ++ rest).head? =
            some '-') := by
        rw [List.append_assoc, hct]
        simp only [List.cons_append, List.head?_cons, Option.some.injEq]
        intro hcc
        rw [hcc] at hc0
        exact absurd hc0 (by decide)
      rw [hshape]
      unfold parseNum
      rw [if_neg hneg, hd]
      simp only [Option.map_some']
      have hmn : ((m.natAbs : Int)) = m := by omega
      rw [hmn]

mutual
/-- Serialize a JSON value (compactly: no insignificant whitespace). -/
def renderJ : Json → List Char
  | .null => 'n' :: ['u', 'l', 'l']
  | .bool true => 't' :: ['r', 'u', 'e']
  | .bool false => 'f' :: ['a', 'l', 's', 'e']
  | .num m e => renderNumChars m e
  | .str s => '"' :: (escChars s.data ++ ['"'])
  | .arr [] => ['[', ']']
  | .arr (x :: xs) => '[' :: (renderJ x ++ renderElems xs ++ [']'])
  | .obj [] => ['\x7b', '\x7d']
  | .obj (f :: fs) => '\x7b' :: (renderField f ++ renderFields fs ++ ['\x7d'])

/-- Comma-prefixed serializations of the remaining array elements. -/
def renderElems : List Json → List Char
  | [] => []
  | x :: xs => ',' :: (renderJ x ++ renderElems xs)

/-- One serialized object field. -/
def renderField : String × Json → List Char
  | (k, v) => '"' :: (escChars k.data ++ '"' :: ':' :: renderJ v)

/-- Comma-prefixed serializations of the remaining object fields. -/
def renderFields : List (String × Json) → List Char
  | [] => []
  | f :: fs => ',' :: (renderField f ++ renderFields fs)
end

mutual
/-- Fuel needed by `parseJ` on a rendered value. -/
def weightJ : Json → Nat
  | .null => 1
  | .bool _ => 1
  | .num _ _ => 1
  | .str _ => 1
  | .arr xs => 1 + weightElems xs
  | .obj fs => 1 + weightFields fs

/-- Fuel needed by `parseElems` on rendered elements. -/
def weightElems : List Json → Nat
  | [] => 0
  | x :: xs => 1 + weightJ x + weightElems xs

/-- Fuel needed by `parseFields` on rendered fields. -/
def weightFields : List (String × Json) → Nat
  | [] => 0
  | f :: fs => 1 + weightJ f.2 + weightFields fs
end

mutual
/-- Parse one JSON value (fuel-indexed recursive descent). -/
def parseJ : Nat → List Char → Option (Json × List Char)
  | 0, _ => none
  | fuel+1, l =>
    match l with
    | [] => none
    | c :: r =>
      if c = 'n' then
        match r with
        | 'u' :: 'l' :: 'l' :: r2 => some (.null, r2)
        | _ => none
      else if c = 't' then
        match r with
        | 'r' :: 'u' :: 'e' :: r2 => some (.bool true, r2)
        | _ => none
      else if c = 'f' then
        match r with
        | 'a' :: 'l' :: 's' :: 'e' :: r2 => some (.bool false, r2)
        | _ => none
      else if c = '"' then
        match parseStrBody r with
        | some (s, r2) => some (.str ⟨s⟩, r2)
        | none => none
      else if c = '[' then
        if r.head? = some ']' then some (.arr [], r.tail)
        else
          match parseElems fuel r with
          | some (xs, r2) => some (.arr xs, r2)
          | none => none
      else if c = '\x7b' then
        if r.head? = some '\x7d' then some (.obj [], r.tail)
        else
          match parseFields fuel r with
          | some (fs, r2) => some (.obj fs, r2)
          | none => none
      else if c = '-' ∨ c.isDigit then
        match parseNum l with
        | some ((m, e), r2) => some (.num m e, r2)
        | none => none
      else none

/-- Parse a non-empty comma-separated element list up to the closing `]`. -/
def parseElems : Nat → List Char → Option (List Json × List Char)
  | 0, _ => none
  | fuel+1, l =>
    match parseJ fuel l with
    | some (j, r) =>
      if r.head? = some ',' then
        match parseElems fuel r.tail with
        | some (xs, r3) => some (j :: xs, r3)
        | none => none
      else if r.head? = some ']' then some ([j], r.tail)
      else none
    | none => none

/-- Parse a non-empty field list up to the closing brace. -/
def parseFields : Nat → List Char → Option (List (String × Json) × List Char)
  | 0, _ => none
  | fuel+1, l =>
    if l.head? = some '"' then
      match parseStrBody l.tail with
      | some (k, r2) =>
        if r2.head? = some ':' then
          match parseJ fuel r2.tail with
          | some (v, r4) =>
            if r4.head? = some ',' then
              match parseFields fuel r4.tail with
              | some (fs, r6) => some ((⟨k⟩, v) :: fs, r6)
              | none => none
            else if r4.head? = some '\x7d' then some ([(⟨k⟩, v)], r4.tail)
            else none
          | none => none
        else none
      | none => none
    else none
end

theorem natChars_head (n : Nat) :
    ∃ c t, natChars n = c :: t ∧ c.isDigit = true := by
  rcases hnc : natChars n with _ | ⟨c, t⟩
  · exact absurd hnc (natChars_ne_nil _)
  · exact ⟨c, t, rfl, natChars_all_digit _ c (hnc ▸ List.mem_cons_self c t)⟩

theorem renderNumChars_head (m : Int) (e : Nat) :
    ∃ c t, renderNumChars m e = c :: t ∧ (c = '-' ∨ c.isDigit = true) := by
  unfold renderNumChars intChars
  by_cases he : e = 0
  · rw [if_pos he]
    by_cases hm : m < 0
    · rw [if_pos hm]
      obtain ⟨c, t, hct, _⟩ := natChars_head m.natAbs
      exact ⟨'-', natChars m.natAbs, rfl, Or.inl rfl⟩
    · rw [if_neg hm, List.nil_append]
      obtain ⟨c, t, hct, hc⟩ := natChars_head m.natAbs
      exact ⟨c, t, hct, Or.inr hc⟩
  · rw [if_neg he]
    by_cases hm : m < 0
    · rw [if_pos hm]
      exact ⟨'-', _, rfl, Or.inl rfl⟩
    · rw [if_neg hm, List.nil_append]
      obtain ⟨c, t, hct, hc⟩ := natChars_head (m.natAbs / 10 ^ e)
      refine ⟨c, t ++ '.' :: (padDigits e (natDigits (m.natAbs % 10 ^ e))).map digitChar,
        ?_, Or.inr hc⟩
      rw [hct]
      rfl

theorem renderJ_head (j : Json) :
    ∃ c t, renderJ j = c :: t ∧
      (c = 'n' ∨ c = 't' ∨ c = 'f' ∨ c = '"' ∨ c = '[' ∨ c = '\x7b' ∨
        c = '-' ∨ c.isDigit = true) := by
  cases j with
  | null => exact ⟨'n', _, rfl, by tauto⟩
  | bool b => cases b with
    | true => exact ⟨'t', _, rfl, by tauto⟩
    | false => exact ⟨'f', _, rfl, by tauto⟩
  | num m e =>
    obtain ⟨c, t, hct, hc⟩ := renderNumChars_head m e
    exact ⟨c, t, by rw [show renderJ (.num m e) = renderNumChars m e from rfl, hct],
      by tauto⟩
  | str s => exact ⟨'"', _, rfl, by tauto⟩
  | arr xs => cases xs with
    | nil => exact ⟨'[', _, rfl, by tauto⟩
    | cons x xs => exact ⟨'[', _, rfl, by tauto⟩
  | obj fs => cases fs with
    | nil => exact ⟨'\x7b', _, rfl, by tauto⟩
    | cons f fs => exact ⟨'\x7b', _, rfl, by tauto⟩

theorem renderJ_ne_close (j : Json) :
    ∃ c t, renderJ j = c :: t ∧ c ≠ ']' ∧ c ≠ '\x7d' := by
  obtain ⟨c, t, hct, hc⟩ := renderJ_head j
  refine ⟨c, t, hct, ?_, ?_⟩ <;>
  · rcases hc with h | h | h | h | h | h | h | h <;>
      first
      | (subst h; decide)
      | (intro he; subst he; exact absurd h (by decide))

theorem weightJ_pos (j : Json) : 0 < weightJ j := by
  cases j <;> simp [weightJ]

/-- Round trip for the JSON serializer and parser: with enough fuel, parsing
a rendered value (followed by a legal boundary) recovers it exactly; the
same holds for the element and field sub-parsers. -/
theorem parse_render_roundtrip (fuel : Nat) :
    (∀ j rest, weightJ j < fuel → numBoundary rest →
      parseJ fuel (renderJ j ++ rest) = some (j, rest)) ∧
    (∀ x xs rest, weightElems (x :: xs) < fuel →
      parseElems fuel (renderJ x ++ renderElems xs ++ ']' :: rest) =
        some (x :: xs, rest)) ∧
    (∀ f fs rest, weightFields (f :: fs) < fuel →
      parseFields fuel (renderField f ++ renderFields fs ++ '\x7d' :: rest) =
        some (f :: fs, rest)) := by
  induction fuel with
  | zero =>
    exact ⟨fun j rest hw _ => absurd hw (Nat.not_lt_zero _),
      fun x xs rest hw => absurd hw (Nat.not_lt_zero _),
      fun f fs rest hw => absurd hw (Nat.not_lt_zero _)⟩
  | succ fuel ih =>
    obtain ⟨ih1, ih2, ih3⟩ := ih
    refine ⟨?_, ?_, ?_⟩
    · intro j rest hw hb
      cases j with
      | null =>
        rw [show renderJ .null ++ rest = 'n' :: 'u' :: 'l' :: 'l' :: rest from rfl]
        simp [parseJ]
      | bool b =>
        cases b with
        | true =>
          rw [show renderJ (.bool true) ++ rest = 't' :: 'r' :: 'u' :: 'e' :: rest from rfl]
          simp [parseJ]
        | false =>
          rw [show renderJ (.bool false) ++ rest =
            'f' :: 'a' :: 'l' :: 's' :: 'e' :: rest from rfl]
          simp [parseJ]
      | num m e =>
        obtain ⟨c, t, hct, hc⟩ := renderNumChars_head m e
        have hne : ¬ c = 'n' ∧ ¬ c = 't' ∧ ¬ c = 'f' ∧ ¬ c = '"' ∧
            ¬ c = '[' ∧ ¬ c = '\x7b' := by
          rcases hc with h | h
          · subst h
            refine ⟨by decide, by decide, by decide, by decide, by decide, by decide⟩
          · refine ⟨?_, ?_, ?_, ?_, ?_, ?_⟩ <;>
              (intro he; subst he; exact absurd h (by decide))
        have hrw : renderJ (.num m e) ++ rest = c :: (t ++ rest) := by
          rw [show renderJ (.num m e) = renderNumChars m e from rfl, hct]
          rfl
        have hback : c :: (t ++ rest) = renderNumChars m e ++ rest := by
          rw [hct]
          rfl
        rw [hrw]
        simp only [parseJ, if_neg hne.1, if_neg hne.2.1, if_neg hne.2.2.1,
          if_neg hne.2.2.2.1, if_neg hne.2.2.2.2.1, if_neg hne.2.2.2.2.2,
          if_pos hc]
        rw [hback, parseNum_renderNum m e rest hb]
      | str s =>
        have hrw : renderJ (.str s) ++ rest = '"' :: (escChars s.data ++ '"' :: rest) := by
          show ('"' :: (escChars s.data ++ ['"'])) ++ rest = _
          simp
        rw [hrw]
        simp [parseJ, parseStrBody_escChars s.data rest]
      | arr xs =>
        cases xs with
        | nil =>
          rw [show renderJ (.arr []) ++ rest = '[' :: ']' :: rest from rfl]
          simp [parseJ]
        | cons x xs =>
          obtain ⟨c, t, hct, hcne1, hcne2⟩ := renderJ_ne_close x
          have hrw : renderJ (.arr (x :: xs)) ++ rest =
              '[' :: (renderJ x ++ (renderElems xs ++ (']' :: rest))) := by
            show ('[' :: (renderJ x ++ renderElems xs ++ [']'])) ++ rest = _
            simp
          have hh : (renderJ x ++ (renderElems xs ++ (']' :: rest))).head? = some c := by
            rw [hct]
            rfl
          have harg := ih2 x xs rest (by
            simp only [weightJ] at hw
            omega)
          simp only [List.append_assoc] at harg
          rw [hrw]
          simp [parseJ, hh, hcne1, harg]
      | obj fs =>
        cases fs with
        | nil =>
          rw [show renderJ (.obj []) ++ rest = '\x7b' :: '\x7d' :: rest from rfl]
          simp [parseJ]
        | cons f fs =>
          have hh : (renderField f ++ (renderFields fs ++ ('\x7d' :: rest))).head? =
              some '"' := by
            rcases f with ⟨k, v⟩
            rfl
          have hrw : renderJ (.obj (f :: fs)) ++ rest =
              '\x7b' :: (renderField f ++ (renderFields fs ++ ('\x7d' :: rest))) := by
            show ('\x7b' :: (renderField f ++ renderFields fs ++ ['\x7d'])) ++ rest = _
            simp
          have harg := ih3 f fs rest (by
            simp only [weightJ] at hw
            omega)
          simp only [List.append_assoc] at harg
          rw [hrw]
          simp [parseJ, hh, harg]
    · intro x xs rest hw
      have hb' : numBoundary (renderElems xs ++ (']' :: rest)) := by
        cases xs with
        | nil =>
          rw [show renderElems [] ++ (']' :: rest) = ']' :: rest by simp [renderElems]]
          exact ⟨by decide, by decide⟩
        | cons y ys =>
          rw [show renderElems (y :: ys) ++ (']' :: rest) =
            ',' :: (renderJ y ++ renderElems ys ++ (']' :: rest)) by simp [renderElems]]
          exact ⟨by decide, by decide⟩
      have h1 := ih1 x (renderElems xs ++ (']' :: rest)) (by
        simp only [weightElems] at hw
        omega) hb'
      simp only [List.append_assoc]
      cases xs with
      | nil =>
        simp only [renderElems, List.nil_append] at h1 ⊢
        simp [parseElems, h1]
      | cons y ys =>
        have h2 := ih2 y ys rest (by
          simp only [weightElems] at hw ⊢
          omega)
        simp only [List.append_assoc] at h2
        simp only [renderElems, List.cons_append, List.append_assoc] at h1 ⊢
        simp [parseElems, h1, h2]
    · intro f fs rest hw
      rcases f with ⟨k, v⟩
      have hb' : numBoundary (renderFields fs ++ ('\x7d' :: rest)) := by
        cases fs with
        | nil =>
          rw [show renderFields [] ++ ('\x7d' :: rest) = '\x7d' :: rest by
            simp [renderFields]]
          exact ⟨by decide, by decide⟩
        | cons g gs =>
          rw [show renderFields (g :: gs) ++ ('\x7d' :: rest) =
            ',' :: (renderField g ++ renderFields gs ++ ('\x7d' :: rest)) by
            simp [renderFields]]
          exact ⟨by decide, by decide⟩
      have h1 := ih1 v (renderFields fs ++ ('\x7d' :: rest)) (by
        simp only [weightFields] at hw
        omega) hb'
      have hstr := parseStrBody_escChars k.data
        (':' :: (renderJ v ++ (renderFields fs ++ ('\x7d' :: rest))))
      simp only [List.append_assoc]
      cases fs with
      | nil =>
        simp only [renderFields, List.nil_append] at h1 hstr ⊢
        simp [parseFields, renderField, hstr, h1]
      | cons g gs =>
        have h2 := ih3 g gs rest (by
          simp only [weightFields] at hw ⊢
          omega)
        simp only [List.append_assoc] at h2
        simp only [renderFields, List.cons_append, List.append_assoc] at h1 hstr ⊢
        simp [parseFields, renderField, hstr, h1, h2]

theorem renderNumChars_ne_nil (m : Int) (e : Nat) : renderNumChars m e ≠ [] := by
  obtain ⟨c, t, hct, _⟩ := renderNumChars_head m e
  rw [hct]
  exact List.cons_ne_nil c t

mutual
theorem weightJ_le_length (j : Json) : weightJ j ≤ (renderJ j).length := by
  cases j with
  | null => decide
  | bool b => cases b <;> decide
  | num m e =>
    have := renderNumChars_ne_nil m e
    have : 0 < (renderNumChars m e).length := List.length_pos.mpr this
    simpa [weightJ, renderJ] using this
  | str s => simp [weightJ, renderJ]
  | arr xs =>
    cases xs with
    | nil => decide
    | cons x t =>
      have h := weightElems_le_length (x :: t)
      simp only [weightJ, renderJ, List.length_cons, List.length_append,
        weightElems, renderElems] at h ⊢
      omega
  | obj fs =>
    cases fs with
    | nil => decide
    | cons f t =>
      have h := weightFields_le_length (f :: t)
      simp only [weightJ, renderJ, List.length_cons, List.length_append,
        weightFields, renderFields] at h ⊢
      omega

theorem weightElems_le_length (xs : List Json) :
    weightElems xs ≤ (renderElems xs).length := by
  cases xs with
  | nil => decide
  | cons x t =>
    have h1 := weightJ_le_length x
    have h2 := weightElems_le_length t
    simp only [weightElems, renderElems, List.length_cons, List.length_append]
    omega

theorem weightFields_le_length (fs : List (String × Json)) :
    weightFields fs ≤ (renderFields fs).length := by
  cases fs with
  | nil => decide
  | cons f t =>
    rcases f with ⟨k, v⟩
    have h1 := weightJ_le_length v
    have h2 := weightFields_le_length t
    simp only [weightFields, renderFields, renderField, List.length_cons,
      List.length_append]
    omega
end

/-- Parse a complete JSON document (`json.loads` model): the whole input
must be consumed. -/
def jsonParse (s : String) : Option Json :=
  match parseJ (s.data.length + 1) s.data with
  | some (j, []) => some j
  | _ => none

/-- `jsonParse` inverts the serializer. -/
theorem jsonParse_render (j : Json) : jsonParse ⟨renderJ j⟩ = some j := by
  unfold jsonParse
  have hw : weightJ j < (renderJ j).length + 1 := by
    have := weightJ_le_length j
    omega
  have h := (parse_render_roundtrip ((renderJ j).length + 1)).1 j [] hw trivial
  rw [List.append_nil] at h
  show (match parseJ ((renderJ j).length + 1) (renderJ j) with
    | some (j, []) => some j
    | _ => none) = some j
  rw [h]

/-! ## StructuredPayloadExtractor (director.py lines 380-385 and 526-531) -/

/-- Python `str.strip()`'s whitespace set. -/
def isPyWS (c : Char) : Bool :=
  c = ' ' || c = '\t' || c = '\n' || c = '\r' || c = '\x0b' || c = '\x0c'

/-- Python `str.strip()` on a character list. -/
def stripList (l : List Char) : List Char :=
  ((l.dropWhile isPyWS).reverse.dropWhile isPyWS).reverse

/-- Python `str.strip()`. -/
def pyStrip (s : String) : String :=
  ⟨stripList s.data⟩

/-- `s.split(sep)[0]`: the part before the first occurrence of `sep` (the
whole list when absent). -/
def upToFirstL (l pat : List Char) : List Char :=
  match findSubIdx? l pat with
  | none => l
  | some i => l.take i

/-- The part after the first occurrence of `pat` (up to the end). -/
def afterFirstL (l pat : List Char) : List Char :=
  match findSubIdx? l pat with
  | none => []
  | some i => l.drop (i + pat.length)

/-- The characters of `"```json"`. -/
def jsonFence : List Char := ['`', '`', '`', 'j', 's', 'o', 'n']

/-- The characters of `"```"`. -/
def plainFence : List Char := ['`', '`', '`']

/-- The JSON-payload extraction of `_default_evaluator` /
`_structured_evaluator` (director.py lines 380-385, 526-531):
`text.split("```json")[1].split("```")[0].strip()` when a tagged fence is
present — `split(sep)[1]` is the text between the first and second
occurrence of `sep` — else the same with the plain fence, else
`text.strip()`. -/
def extractPayload (text : String) : String :=
  let t := text.data
  if containsSub t jsonFence then
    ⟨stripList (upToFirstL (upToFirstL (afterFirstL t jsonFence) jsonFence) plainFence)⟩
  else if containsSub t plainFence then
    ⟨stripList (upToFirstL (upToFirstL (afterFirstL t plainFence) plainFence) plainFence)⟩
  else
    ⟨stripList t⟩

/-- A prefix of an append that fits inside the first part is a prefix of it. -/
theorem prefix_of_append_of_le {p A B : List Char} (h : p <+: A ++ B)
    (hl : p.length ≤ A.length) : p <+: A := by
  obtain ⟨t, ht⟩ := h
  have : p = A.take p.length := by
    rw [← List.take_append_of_le_length hl, ← ht, List.take_left]
  rw [this]
  exact List.take_prefix _ _

/-- The overhang of a prefix past the first part of an append is a prefix
of the second part. -/
theorem drop_prefix_of_append_of_ge {p A B : List Char} (h : p <+: A ++ B)
    (hl : A.length ≤ p.length) : p.drop A.length <+: B := by
  obtain ⟨t, ht⟩ := h
  refine ⟨t, ?_⟩
  have := congrArg (List.drop A.length) ht
  rwa [List.drop_append_of_le_length hl, List.drop_left] at this

/-- A cons-headed prefix of an append with non-empty first part pins its
head inside the first part. -/
theorem head_mem_of_cons_prefix_append {c : Char} {p A B : List Char}
    (h : (c :: p) <+: A ++ B) (hA : A ≠ []) : c ∈ A := by
  cases A with
  | nil => exact absurd rfl hA
  | cons a t =>
    obtain ⟨u, hu⟩ := h
    rw [List.cons_append, List.cons_append] at hu
    have : c = a := (List.cons.injEq _ _ _ _ ▸ hu).1
    rw [this]
    exact List.mem_cons_self a t

/-- The head pinned by a cons-headed prefix. -/
theorem head_eq_of_cons_pref {c : Char} {p l : List Char}
    (h : (c :: p) <+: l) : l.head? = some c := by
  cases l with
  | nil =>
    obtain ⟨u, hu⟩ := h
    exact absurd hu (by simp)
  | cons a t =>
    obtain ⟨u, hu⟩ := h
    rw [List.cons_append] at hu
    have : c = a := (List.cons.injEq _ _ _ _ ▸ hu).1
    rw [List.head?_cons, this]

/-- A prefix of a drop is an infix. -/
theorem infix_of_prefix_drop {p l : List Char} {j : Nat}
    (h : p <+: l.drop j) : p <:+: l := by
  obtain ⟨t, ht⟩ := h
  exact ⟨l.take j, t, by rw [List.append_assoc, ht, List.take_append_drop]⟩

/-- If `pat` matches at `i` and nowhere earlier, `findSubIdx?` finds `i`. -/
theorem findSubIdx?_eq_some (l pat : List Char) (i : Nat)
    (hmatch : pat <+: l.drop i)
    (hno : ∀ k, k < i → ¬ pat <+: l.drop k) :
    findSubIdx? l pat = some i := by
  induction l generalizing i with
  | nil =>
    cases i with
    | zero =>
      rw [findSubIdx?, if_pos (List.isPrefixOf_iff_prefix.mpr (by simpa using hmatch))]
    | succ i =>
      exfalso
      exact hno 0 (Nat.succ_pos i) (by simpa using (by simpa using hmatch : pat <+: []))
  | cons a t ih =>
    cases i with
    | zero =>
      rw [findSubIdx?, if_pos (List.isPrefixOf_iff_prefix.mpr (by simpa using hmatch))]
    | succ i =>
      rw [findSubIdx?,
        if_neg (fun hp => hno 0 (Nat.succ_pos i)
          (by simpa using List.isPrefixOf_iff_prefix.mp hp))]
      rw [ih i (by simpa using hmatch)
        (fun k hk => by simpa using hno (k+1) (by omega))]
      rfl

theorem head?_eq_of_prefix {p l : List Char} (h : p <+: l) (hp : p ≠ []) :
    l.head? = p.head? := by
  cases p with
  | nil => exact absurd rfl hp
  | cons c t => rw [head_eq_of_cons_pref h, List.head?_cons]

theorem findSubIdx?_some_match {l pat : List Char} {i : Nat}
    (h : findSubIdx? l pat = some i) : pat <+: l.drop i := by
  induction l generalizing i with
  | nil =>
    rw [findSubIdx?] at h
    by_cases hp : pat.isPrefixOf ([] : List Char)
    · rw [if_pos hp] at h
      cases h
      simpa using List.isPrefixOf_iff_prefix.mp hp
    · rw [if_neg hp] at h
      cases h
  | cons a t ih =>
    rw [findSubIdx?] at h
    by_cases hp : pat.isPrefixOf (a :: t)
    · rw [if_pos hp] at h
      cases h
      simpa using List.isPrefixOf_iff_prefix.mp hp
    · rw [if_neg hp] at h
      cases hfi : findSubIdx? t pat with
      | none => rw [hfi] at h; cases h
      | some i0 =>
        rw [hfi] at h
        simp only [Option.map_some', Option.some.injEq] at h
        subst h
        simpa using ih hfi

theorem match_of_infix {p l : List Char} (h : p <:+: l) :
    ∃ j, p <+: l.drop j := by
  obtain ⟨u, v, huv⟩ := h
  refine ⟨u.length, ⟨v, ?_⟩⟩
  rw [← huv, List.append_assoc, List.drop_left]

theorem findSubIdx?_eq_none {l pat : List Char}
    (h : ∀ k, ¬ pat <+: l.drop k) : findSubIdx? l pat = none := by
  rw [← Option.not_isSome_iff_eq_none]
  intro hs
  obtain ⟨j, hj⟩ := match_of_infix ((findSubIdx?_isSome_iff_sub l pat).mp hs)
  exact h j hj

/-- No occurrence of the plain fence strictly before the closing fence of
`'\n' :: P ++ '\n' :: Z`, when `P` itself has no fence. -/
theorem no_plainFence_early (P Z : List Char) (hp : ¬ plainFence <:+: P) :
    ∀ j, j < P.length + 2 → ¬ plainFence <+: (('\n' :: P) ++ ('\n' :: Z)).drop j := by
  intro j hj hpre
  by_cases hcase : j + 3 ≤ P.length + 1
  · have hsplit : (('\n' :: P) ++ ('\n' :: Z)).drop j =
        ('\n' :: P).drop j ++ ('\n' :: Z) :=
      List.drop_append_of_le_length (by simp; omega)
    rw [hsplit] at hpre
    have h1 : plainFence <+: ('\n' :: P).drop j :=
      prefix_of_append_of_le hpre (by simp [plainFence]; omega)
    have h2 : plainFence <:+: ('\n' :: P) := infix_of_prefix_drop h1
    rcases List.infix_cons_iff.mp h2 with h3 | h3
    · have h4 : ('\n' :: P).head? = some '`' :=
        head_eq_of_cons_pref (show ('`' :: ['`', '`']) <+: ('\n' :: P) from h3)
      simp at h4
    · exact hp h3
  · have hj2 : j ≤ P.length + 1 := by omega
    have hsplit : (('\n' :: P) ++ ('\n' :: Z)).drop j =
        ('\n' :: P).drop j ++ ('\n' :: Z) :=
      List.drop_append_of_le_length (by simp; omega)
    rw [hsplit] at hpre
    have hlen : (('\n' :: P).drop j).length ≤ plainFence.length := by
      simp [plainFence]
      omega
    have h2 := drop_prefix_of_append_of_ge hpre hlen
    have hk : (('\n' :: P).drop j).length = 0 ∨ (('\n' :: P).drop j).length = 1 ∨
        (('\n' :: P).drop j).length = 2 := by
      simp only [List.length_drop, List.length_cons]
      omega
    have hhead : (plainFence.drop (('\n' :: P).drop j).length).head? = some '`' := by
      rcases hk with h | h | h <;> rw [h] <;> rfl
    have hne : plainFence.drop (('\n' :: P).drop j).length ≠ [] := by
      rcases hk with h | h | h <;> rw [h] <;> decide
    have := head?_eq_of_prefix h2 hne
    rw [hhead] at this
    simp at this

/-- The fence search in the tail region: the plain fence is first found
exactly at the closing fence. -/
theorem findSubIdx?_closing (P A : List Char) (hp : ¬ plainFence <:+: P) :
    findSubIdx? (('\n' :: P) ++ ('\n' :: (plainFence ++ A))) plainFence =
      some (P.length + 2) := by
  apply findSubIdx?_eq_some
  · have hshape : (('\n' :: P) ++ ('\n' :: (plainFence ++ A))).drop (P.length + 2) =
        plainFence ++ A := by
      have : ('\n' :: P) ++ ('\n' :: (plainFence ++ A)) =
          (('\n' :: P) ++ ['\n']) ++ (plainFence ++ A) := by simp
      rw [this, show P.length + 2 = (('\n' :: P) ++ ['\n']).length by simp]
      exact List.drop_left _ _
    rw [hshape]
    exact List.prefix_append _ _
  · exact fun k hk => no_plainFence_early P (plainFence ++ A) hp k hk

/-- In the tail region, a `"```json"` occurrence can only sit exactly at
the closing fence (when the trailing prose has no backtick). -/
theorem jsonFence_only_at_closing (P A : List Char) (hp : ¬ plainFence <:+: P)
    (ha : '`' ∉ A) (j : Nat)
    (hpre : jsonFence <+: (('\n' :: P) ++ ('\n' :: (plainFence ++ A))).drop j) :
    j = P.length + 2 := by
  have hplain : plainFence <+: (('\n' :: P) ++ ('\n' :: (plainFence ++ A))).drop j :=
    List.IsPrefix.trans (by decide) hpre
  have hge : P.length + 2 ≤ j := by
    by_contra hlt
    exact no_plainFence_early P (plainFence ++ A) hp j (by omega) hplain
  by_contra hne
  have hgt : P.length + 2 < j := by omega
  have hshape : (('\n' :: P) ++ ('\n' :: (plainFence ++ A))).drop j =
      (plainFence ++ A).drop (j - (P.length + 2)) := by
    have h1 : ('\n' :: P) ++ ('\n' :: (plainFence ++ A)) =
        (('\n' :: P) ++ ['\n']) ++ (plainFence ++ A) := by simp
    rw [h1]
    nth_rewrite 1 [show j = (P.length + 2) + (j - (P.length + 2)) by omega]
    rw [← List.drop_drop]
    congr 1
    rw [show P.length + 2 = (('\n' :: P) ++ ['\n']).length by simp]
    exact List.drop_left _ _
  rw [hshape] at hpre
  set i := j - (P.length + 2) with hi
  have hipos : 0 < i := by omega
  by_cases hile : i ≤ 3
  · have hsplit : (plainFence ++ A).drop i = plainFence.drop i ++ A :=
      List.drop_append_of_le_length (by simp [plainFence]; omega)
    rw [hsplit] at hpre
    have hlen : (plainFence.drop i).length ≤ jsonFence.length := by
      simp [plainFence, jsonFence]
      omega
    have h2 := drop_prefix_of_append_of_ge hpre hlen
    have hkk : i = 1 ∨ i = 2 ∨ i = 3 := by omega
    have hhead : (jsonFence.drop (plainFence.drop i).length).head? = some '`' := by
      rcases hkk with h | h | h <;> rw [h] <;> rfl
    have hne2 : jsonFence.drop (plainFence.drop i).length ≠ [] := by
      rcases hkk with h | h | h <;> rw [h] <;> decide
    have hA := head?_eq_of_prefix h2 hne2
    rw [hhead] at hA
    cases A with
    | nil => simp at hA
    | cons a t =>
      simp only [List.head?_cons, Option.some.injEq] at hA
      subst hA
      exact ha (List.mem_cons_self _ _)
  · have hsplit : (plainFence ++ A).drop i = A.drop (i - 3) := by
      nth_rewrite 1 [show i = 3 + (i - 3) by omega]
      rw [← List.drop_drop]
      congr 1
    rw [hsplit] at hpre
    have hh : (A.drop (i - 3)).head? = some '`' :=
      head_eq_of_cons_pref
        (show ('`' :: ['`', '`', 'j', 's', 'o', 'n']) <+: A.drop (i - 3) from hpre)
    have h3 : '`' ∈ A.drop (i - 3) := by
      cases hAd : A.drop (i - 3) with
      | nil => rw [hAd] at hh; simp at hh
      | cons a t =>
        rw [hAd] at hh
        simp only [List.head?_cons, Option.some.injEq] at hh
        subst hh
        exact List.mem_cons_self _ _
    exact ha (List.drop_subset _ _ h3)

/-- The opening `"```json"` fence is the first one when the leading prose
has no backtick. -/
theorem findSubIdx?_opening (B R : List Char) (hb : '`' ∉ B) :
    findSubIdx? (B ++ (jsonFence ++ R)) jsonFence = some B.length := by
  apply findSubIdx?_eq_some
  · rw [List.drop_left]
    exact List.prefix_append _ _
  · intro k hk hpre
    have hsplit : (B ++ (jsonFence ++ R)).drop k = B.drop k ++ (jsonFence ++ R) :=
      List.drop_append_of_le_length (by omega)
    rw [hsplit] at hpre
    have hmem : '`' ∈ B.drop k :=
      head_mem_of_cons_prefix_append
        (show ('`' :: ['`', '`', 'j', 's', 'o', 'n']) <+: _ from hpre)
        (by
          intro h0
          have := congrArg List.length h0
          simp only [List.length_drop, List.length_nil] at this
          omega)
    exact hb (List.drop_subset _ _ hmem)

/-- Python `str.strip` of the fenced region recovers the payload when the
payload itself has no leading/trailing whitespace. -/
theorem stripList_wrap (P : List Char) (hne : P ≠ [])
    (hh : ∀ c, P.head? = some c → isPyWS c = false)
    (hl : ∀ c, P.getLast? = some c → isPyWS c = false) :
    stripList (('\n' :: P) ++ ['\n']) = P := by
  cases P with
  | nil => exact absurd rfl hne
  | cons c P' =>
    have hc := hh c rfl
    unfold stripList
    have h1 : (('\n' :: (c :: P')) ++ ['\n']).dropWhile isPyWS =
        (c :: P') ++ ['\n'] := by
      rw [List.cons_append, List.dropWhile_cons]
      rw [show isPyWS '\n' = true from rfl]
      simp only [if_true]
      rw [List.cons_append, List.dropWhile_cons, hc]
      simp
    rw [h1]
    have h2 : ((c :: P') ++ ['\n']).reverse = '\n' :: (c :: P').reverse := by
      rw [List.reverse_append]
      rfl
    rw [h2, List.dropWhile_cons]
    rw [show isPyWS '\n' = true from rfl]
    simp only [if_true]
    have h3 : (c :: P').reverse.dropWhile isPyWS = (c :: P').reverse := by
      cases hrev : (c :: P').reverse with
      | nil =>
        have := congrArg List.length hrev
        simp at this
      | cons d t =>
        have hdl : (c :: P').getLast? = some d := by
          rw [List.getLast?_eq_head?_reverse, hrev, List.head?_cons]
        rw [List.dropWhile_cons, hl d hdl]
        simp
    rw [h3, List.reverse_reverse]

/-- Full extraction: a payload fenced as ```` ```json\n<payload>\n``` ````
inside prose is recovered exactly by `extractPayload`, provided the prose
has no backticks, the payload has no triple-backtick, and the payload does
not begin or end with whitespace. -/
theorem extractPayload_embedded (before payload after : String)
    (hb : '`' ∉ before.data) (ha : '`' ∉ after.data)
    (hp : ¬ plainFence <:+: payload.data)
    (hne : payload.data ≠ [])
    (hh : ∀ c, payload.data.head? = some c → isPyWS c = false)
    (hl : ∀ c, payload.data.getLast? = some c → isPyWS c = false) :
    extractPayload (before ++ "```json\n" ++ payload ++ "\n```" ++ after) = payload := by
  set B := before.data
  set P := payload.data
  set A := after.data
  set R : List Char := ('\n' :: P) ++ ('\n' :: (plainFence ++ A)) with hR
  have htext : (before ++ "```json\n" ++ payload ++ "\n```" ++ after).data =
      B ++ (jsonFence ++ R) := by
    show (((before ++ "```json\n") ++ payload) ++ "\n```").data ++ A = _
    rw [String.data_append, String.data_append, String.data_append]
    rw [show ("```json\n" : String).data = jsonFence ++ ['\n'] from rfl,
      show ("\n```" : String).data = '\n' :: plainFence from rfl]
    simp [hR]
  have hfirst : findSubIdx? (B ++ (jsonFence ++ R)) jsonFence = some B.length :=
    findSubIdx?_opening B R hb
  have hafter : afterFirstL (B ++ (jsonFence ++ R)) jsonFence = R := by
    unfold afterFirstL
    rw [hfirst]
    show List.drop (B.length + jsonFence.length) (B ++ (jsonFence ++ R)) = R
    rw [show B.length + jsonFence.length = (B ++ jsonFence).length by simp]
    rw [show B ++ (jsonFence ++ R) = (B ++ jsonFence) ++ R by simp]
    exact List.drop_left _ _
  have hclosing : findSubIdx? R plainFence = some (P.length + 2) :=
    findSubIdx?_closing P A hp
  have hcut1 : upToFirstL R jsonFence = R ∨
      upToFirstL R jsonFence = ('\n' :: P) ++ ['\n'] := by
    unfold upToFirstL
    cases hfj : findSubIdx? R jsonFence with
    | none => exact Or.inl rfl
    | some p =>
      have hpmatch := findSubIdx?_some_match hfj
      have hpp : p = P.length + 2 := jsonFence_only_at_closing P A hp ha p hpmatch
      subst hpp
      refine Or.inr ?_
      rw [show R = (('\n' :: P) ++ ['\n']) ++ (plainFence ++ A) by simp [hR]]
      rw [show P.length + 2 = (('\n' :: P) ++ ['\n']).length by simp]
      exact List.take_left _ _
  have hnone : findSubIdx? (('\n' :: P) ++ ['\n']) plainFence = none := by
    apply findSubIdx?_eq_none
    intro k hk
    by_cases hklt : k < P.length + 2
    · exact no_plainFence_early P [] hp k hklt hk
    · have hlen := hk.length_le
      rw [List.length_drop] at hlen
      simp only [List.length_append, List.length_cons,
        List.length_singleton] at hlen
      simp [plainFence] at hlen
      omega
  have hfinal : upToFirstL (upToFirstL R jsonFence) plainFence =
      ('\n' :: P) ++ ['\n'] := by
    rcases hcut1 with hcase | hcase
    · rw [hcase]
      unfold upToFirstL
      rw [hclosing]
      rw [show R = (('\n' :: P) ++ ['\n']) ++ (plainFence ++ A) by simp [hR]]
      rw [show P.length + 2 = (('\n' :: P) ++ ['\n']).length by simp]
      exact List.take_left _ _
    · rw [hcase]
      unfold upToFirstL
      rw [hnone]
  have hcontains : containsSub (B ++ (jsonFence ++ R)) jsonFence = true := by
    unfold containsSub
    rw [hfirst]
    rfl
  unfold extractPayload
  rw [htext]
  simp only [hcontains, if_true]
  rw [hafter, hfinal, stripList_wrap P hne hh hl]

/-! ## Pydantic wire format of `StructuredEvaluation` (models.py lines 13-85) -/

/-- The wire value of a `RiskLevel` (a `str` Enum, models.py lines 13-18). -/
def RiskLevel.value : RiskLevel → String
  | .low => "low"
  | .medium => "medium"
  | .high => "high"
  | .critical => "critical"

/-- The wire value of a `ChangeType` (a `str` Enum, models.py lines 21-25). -/
def ChangeType.value : ChangeType → String
  | .add => "add"
  | .modify => "modify"
  | .delete => "delete"

/-- Modelled from the spec: pydantic parsing of a `RiskLevel` wire value. -/
def RiskLevel.ofValue? (s : String) : Option RiskLevel :=
  if s = "low" then some .low
  else if s = "medium" then some .medium
  else if s = "high" then some .high
  else if s = "critical" then some .critical
  else none

/-- Modelled from the spec: pydantic parsing of a `ChangeType` wire value. -/
def ChangeType.ofValue? (s : String) : Option ChangeType :=
  if s = "add" then some .add
  else if s = "modify" then some .modify
  else if s = "delete" then some .delete
  else none

/-- Modelled from the spec: serialization of an optional value (`None` as
`null`). -/
def optToJson (f : α → Json) : Option α → Json
  | none => .null
  | some a => f a

/-- Modelled from the spec: serialization of a `SecurityCheck` (fields in
declaration order, models.py lines 28-33). -/
def SecurityCheck.toJson (sc : SecurityCheck) : Json :=
  .obj [("passed", .bool sc.passed),
        ("issues", .arr (sc.issues.map .str)),
        ("risk_level", .str sc.risk_level.value),
        ("recommendations", .arr (sc.recommendations.map .str))]

/-- Modelled from the spec: serialization of a `TestResult` (models.py
lines 36-43). -/
def TestResult.toJson (tr : TestResult) : Json :=
  .obj [("passed", .bool tr.passed),
        ("total_tests", .num tr.total_tests 0),
        ("passed_tests", .num tr.passed_tests 0),
        ("failed_tests", .num tr.failed_tests 0),
        ("error_messages", .arr (tr.error_messages.map .str)),
        ("coverage", optToJson (fun d => .num d.mantissa d.exp) tr.coverage)]

/-- Modelled from the spec: serialization of a `ChangesetItem` (models.py
lines 46-51). -/
def ChangesetItem.toJson (ci : ChangesetItem) : Json :=
  .obj [("file", .str ci.file),
        ("change_type", .str ci.change_type.value),
        ("description", .str ci.description),
        ("lines_changed", optToJson (fun n => .num n 0) ci.lines_changed)]

/-- Modelled from the spec: serialization of a `WorkflowChangeset`
(models.py lines 54-57). -/
def WorkflowChangeset.toJson (wc : WorkflowChangeset) : Json :=
  .obj [("changes", .arr (wc.changes.map ChangesetItem.toJson)),
        ("summary", .str wc.summary)]

/-- Modelled from the spec: serialization of a `StructuredEvaluation`
(models.py lines 69-77), fields in declaration order. -/
def StructuredEvaluation.toJson (se : StructuredEvaluation) : Json :=
  .obj [("success", .bool se.success),
        ("task_completion", .num se.task_completion.mantissa se.task_completion.exp),
        ("security_check", se.security_check.toJson),
        ("test_results", optToJson TestResult.toJson se.test_results),
        ("changeset", se.changeset.toJson),
        ("feedback", .str se.feedback),
        ("next_steps", .arr (se.next_steps.map .str))]

/-- Modelled from the spec: `se.json()`, the serialized wire text. -/
def StructuredEvaluation.json (se : StructuredEvaluation) : String :=
  ⟨renderJ se.toJson⟩

/-- Modelled from the spec: name-based field access of pydantic parsing. -/
def fieldLookup (fs : List (String × Json)) (k : String) : Option Json :=
  (fs.find? (fun f => f.1 = k)).map Prod.snd

/-- Modelled from the spec: reading a JSON boolean. -/
def Json.asBool? : Json → Option Bool
  | .bool b => some b
  | _ => none

/-- Modelled from the spec: reading a JSON string. -/
def Json.asStr? : Json → Option String
  | .str s => some s
  | _ => none

/-- Modelled from the spec: reading a JSON integer. -/
def Json.asInt? : Json → Option Int
  | .num m 0 => some m
  | _ => none

/-- Modelled from the spec: reading a JSON number as an exact decimal. -/
def Json.asDec? : Json → Option DecimalFloat
  | .num m e => some ⟨m, e⟩
  | _ => none

/-- Modelled from the spec: reading an optional value (`null` as `None`). -/
def optOfJson? (f : Json → Option α) : Json → Option (Option α)
  | .null => some none
  | j => (f j).map some

/-- Modelled from the spec: reading a list of JSON strings. -/
def strListOf? : List Json → Option (List String)
  | [] => some []
  | .str s :: xs => (strListOf? xs).map (s :: ·)
  | _ => none

/-- Modelled from the spec: pydantic parsing of a `SecurityCheck`. -/
def SecurityCheck.fromJson? : Json → Option SecurityCheck
  | .obj fs => do
    let pj ← fieldLookup fs "passed"
    let passed ← pj.asBool?
    let ij ← fieldLookup fs "issues"
    let issues ← match ij with | .arr xs => strListOf? xs | _ => none
    let rj ← fieldLookup fs "risk_level"
    let rs ← rj.asStr?
    let risk ← RiskLevel.ofValue? rs
    let cj ← fieldLookup fs "recommendations"
    let recs ← match cj with | .arr xs => strListOf? xs | _ => none
    some { passed := passed, issues := issues, risk_level := risk,
           recommendations := recs }
  | _ => none

/-- Modelled from the spec: pydantic parsing of a `TestResult`. -/
def TestResult.fromJson? : Json → Option TestResult
  | .obj fs => do
    let pj ← fieldLookup fs "passed"
    let passed ← pj.asBool?
    let tj ← fieldLookup fs "total_tests"
    let total ← tj.asInt?
    let sj ← fieldLookup fs "passed_tests"
    let ptests ← sj.asInt?
    let fj ← fieldLookup fs "failed_tests"
    let ftests ← fj.asInt?
    let ej ← fieldLookup fs "error_messages"
    let errs ← match ej with | .arr xs => strListOf? xs | _ => none
    let cj ← fieldLookup fs "coverage"
    let cov ← optOfJson? Json.asDec? cj
    some { passed := passed, total_tests := total, passed_tests := ptests,
           failed_tests := ftests, error_messages := errs, coverage := cov }
  | _ => none

/-- Modelled from the spec: pydantic parsing of a `ChangesetItem`. -/
def ChangesetItem.fromJson? : Json → Option ChangesetItem
  | .obj fs => do
    let fj ← fieldLookup fs "file"
    let file ← fj.asStr?
    let tj ← fieldLookup fs "change_type"
    let ts ← tj.asStr?
    let ct ← ChangeType.ofValue? ts
    let dj ← fieldLookup fs "description"
    let desc ← dj.asStr?
    let lj ← fieldLookup fs "lines_changed"
    let lc ← optOfJson? Json.asInt? lj
    some { file := file, change_type := ct, description := desc,
           lines_changed := lc }
  | _ => none

/-- Modelled from the spec: reading a list of changeset items. -/
def changesOf? : List Json → Option (List ChangesetItem)
  | [] => some []
  | x :: xs => do
    let c ← ChangesetItem.fromJson? x
    (changesOf? xs).map (c :: ·)

/-- Modelled from the spec: pydantic parsing of a `WorkflowChangeset`. -/
def WorkflowChangeset.fromJson? : Json → Option WorkflowChangeset
  | .obj fs => do
    let cj ← fieldLookup fs "changes"
    let changes ← match cj with | .arr xs => changesOf? xs | _ => none
    let sj ← fieldLookup fs "summary"
    let summary ← sj.asStr?
    some { changes := changes, summary := summary }
  | _ => none

/-- Modelled from the spec: pydantic parsing of a `StructuredEvaluation`,
running the `task_completion` field validator (models.py lines 79-85). -/
def StructuredEvaluation.fromJson? : Json → Option StructuredEvaluation
  | .obj fs => do
    let sj ← fieldLookup fs "success"
    let success ← sj.asBool?
    let tj ← fieldLookup fs "task_completion"
    let tc0 ← tj.asDec?
    let tc ← match StructuredEvaluation.validate_completion_percentage tc0 with
             | .ok v => some v
             | .error _ => none
    let scj ← fieldLookup fs "security_check"
    let sc ← SecurityCheck.fromJson? scj
    let trj ← fieldLookup fs "test_results"
    let tr ← optOfJson? TestResult.fromJson? trj
    let cj ← fieldLookup fs "changeset"
    let cset ← WorkflowChangeset.fromJson? cj
    let fj ← fieldLookup fs "feedback"
    let fb ← fj.asStr?
    let nj ← fieldLookup fs "next_steps"
    let ns ← match nj with | .arr xs => strListOf? xs | _ => none
    some { success := success, task_completion := tc, security_check := sc,
           test_results := tr, changeset := cset, feedback := fb,
           next_steps := ns }
  | _ => none

/-- `StructuredEvaluation.parse_raw` (director.py line 533): parse the raw
JSON text into the model, running the validators. -/
def StructuredEvaluation.parse_raw (s : String) : Option StructuredEvaluation :=
  (jsonParse s).bind StructuredEvaluation.fromJson?

theorem strListOf?_map (l : List String) : strListOf? (l.map Json.str) = some l := by
  induction l with
  | nil => rfl
  | cons s t ih => simp [strListOf?, ih]

theorem riskLevel_ofValue_value (r : RiskLevel) : RiskLevel.ofValue? r.value = some r := by
  cases r <;> rfl

theorem changeType_ofValue_value (c : ChangeType) : ChangeType.ofValue? c.value = some c := by
  cases c <;> rfl

theorem securityCheck_fromJson_toJson (sc : SecurityCheck) :
    SecurityCheck.fromJson? sc.toJson = some sc := by
  simp [SecurityCheck.toJson, SecurityCheck.fromJson?, fieldLookup, List.find?,
    Json.asBool?, Json.asStr?, strListOf?_map, riskLevel_ofValue_value]

theorem testResult_fromJson_toJson (tr : TestResult) :
    TestResult.fromJson? tr.toJson = some tr := by
  cases tr with
  | mk passed total ptests ftests errs cov =>
    cases cov <;>
      simp [TestResult.toJson, TestResult.fromJson?, fieldLookup, List.find?,
        Json.asBool?, Json.asInt?, Json.asDec?, optToJson, optOfJson?,
        strListOf?_map]

theorem changesetItem_fromJson_toJson (ci : ChangesetItem) :
    ChangesetItem.fromJson? ci.toJson = some ci := by
  cases ci with
  | mk file ct desc lc =>
    cases lc <;>
      simp [ChangesetItem.toJson, ChangesetItem.fromJson?, fieldLookup,
        List.find?, Json.asStr?, Json.asInt?, optToJson, optOfJson?,
        changeType_ofValue_value]

theorem changesOf?_map (l : List ChangesetItem) :
    changesOf? (l.map ChangesetItem.toJson) = some l := by
  induction l with
  | nil => rfl
  | cons c t ih => simp [changesOf?, changesetItem_fromJson_toJson, ih]

theorem workflowChangeset_fromJson_toJson (wc : WorkflowChangeset) :
    WorkflowChangeset.fromJson? wc.toJson = some wc := by
  simp [WorkflowChangeset.toJson, WorkflowChangeset.fromJson?, fieldLookup,
    List.find?, Json.asStr?, changesOf?_map]

theorem optOfJson?_testResult (tr : Option TestResult) :
    optOfJson? TestResult.fromJson? (optToJson TestResult.toJson tr) = some tr := by
  cases tr with
  | none => rfl
  | some t =>
    have h := testResult_fromJson_toJson t
    simp [optToJson, optOfJson?, TestResult.toJson] at h ⊢
    simp [h]

theorem structuredEvaluation_fromJson_toJson (se : StructuredEvaluation)
    (h : StructuredEvaluation.validate_completion_percentage se.task_completion =
      .ok se.task_completion) :
    StructuredEvaluation.fromJson? se.toJson = some se := by
  cases se with
  | mk success tc sc tr cset fb ns =>
    simp_all [StructuredEvaluation.toJson, StructuredEvaluation.fromJson?,
      fieldLookup, List.find?, Json.asBool?, Json.asStr?, Json.asDec?,
      strListOf?_map, securityCheck_fromJson_toJson, optOfJson?_testResult,
      workflowChangeset_fromJson_toJson]

theorem parse_raw_json (se : StructuredEvaluation)
    (h : StructuredEvaluation.validate_completion_percentage se.task_completion =
      .ok se.task_completion) :
    StructuredEvaluation.parse_raw (StructuredEvaluation.json se) = some se := by
  unfold StructuredEvaluation.parse_raw StructuredEvaluation.json
  rw [jsonParse_render]
  exact structuredEvaluation_fromJson_toJson se h

/-- The serialized text of a `StructuredEvaluation` always has the shape
`\x7b … \x7d`: it opens with the brace and closes with it. -/
theorem StructuredEvaluation.json_data_shape (se : StructuredEvaluation) :
    ∃ l, (StructuredEvaluation.json se).data = '\x7b' :: (l ++ ['\x7d']) :=
  ⟨_, rfl⟩

/-- A `StructuredEvaluation` whose `feedback` text itself contains a
triple-backtick fence. -/
def seBacktickFeedback : StructuredEvaluation :=
  { success := true
    task_completion := ⟨1, 0⟩
    security_check := { passed := true, issues := [], risk_level := .low,
                        recommendations := [] }
    test_results := none
    changeset := { changes := [], summary := "" }
    feedback := "```"
    next_steps := [] }

/-- C9 (counterexample): a *valid* `StructuredEvaluation` whose `feedback`
field contains a triple backtick breaks the serialize / embed / extract /
reparse roundtrip even with *empty* surrounding prose: the extraction's
`split("```")[0]` cuts the serialized JSON at the fence inside the string
field, the truncated text no longer parses, and the reparse does not return
the original instance. -/
theorem c9_structured_roundtrip_counterexample :
    StructuredEvaluation.validate_completion_percentage
        seBacktickFeedback.task_completion = .ok seBacktickFeedback.task_completion
    ∧ StructuredEvaluation.parse_raw (extractPayload
        ("```json\n" ++ StructuredEvaluation.json seBacktickFeedback ++ "\n```")) ≠
      some seBacktickFeedback := by
  refine ⟨rfl, ?_⟩
  decide

/-- C9 (amended): for every `StructuredEvaluation` accepted by the
`task_completion` validator, serializing it, embedding the text in a
` ```json ` fenced block inside surrounding prose and reparsing the
extracted payload recovers the instance field-for-field — *provided* the
prose contains no backtick and the serialized text contains no
triple-backtick (otherwise the `split`-based extraction cuts the wrong
span, see the counterexample). -/
theorem c9_structured_roundtrip_amended (se : StructuredEvaluation)
    (before after : String)
    (hv : StructuredEvaluation.validate_completion_percentage se.task_completion =
      .ok se.task_completion)
    (hb : '`' ∉ before.data) (ha : '`' ∉ after.data)
    (hp : ¬ plainFence <:+: (StructuredEvaluation.json se).data) :
    StructuredEvaluation.parse_raw (extractPayload
      (before ++ "```json\n" ++ StructuredEvaluation.json se ++ "\n```" ++ after)) =
      some se := by
  obtain ⟨l, hsh⟩ := StructuredEvaluation.json_data_shape se
  rw [extractPayload_embedded before (StructuredEvaluation.json se) after hb ha hp
    ?h1 ?h2 ?h3]
  · exact parse_raw_json se hv
  case h1 =>
    rw [hsh]
    simp
  case h2 =>
    intro c hc
    rw [hsh] at hc
    simp only [List.head?_cons, Option.some.injEq] at hc
    subst hc
    rfl
  case h3 =>
    intro c hc
    rw [hsh, show ('\x7b' :: (l ++ ['\x7d'])) = ('\x7b' :: l) ++ ['\x7d'] from rfl,
      List.getLast?_concat] at hc
    cases hc
    rfl

/-- A fully populated `StructuredEvaluation` used as a concrete roundtrip
instance. -/
def seRoundtripExample : StructuredEvaluation :=
  { success := true
    task_completion := ⟨85, 2⟩
    security_check := { passed := true, issues := ["shell=True"],
                        risk_level := .medium, recommendations := ["use arrays"] }
    test_results := some { passed := true, total_tests := 4, passed_tests := 4,
                           failed_tests := 0, error_messages := [],
                           coverage := some ⟨925, 1⟩ }
    changeset := { changes := [{ file := "src/app.py", change_type := .modify,
                                 description := "fix bug", lines_changed := some 7 }],
                   summary := "one fix" }
    feedback := "looks good"
    next_steps := ["ship it"] }

theorem c9_structured_roundtrip_amended_witness :
    (StructuredEvaluation.validate_completion_percentage
        seRoundtripExample.task_completion = .ok seRoundtripExample.task_completion
      ∧ '`' ∉ ("Here is my evaluation:\n" : String).data
      ∧ '`' ∉ ("\nDone." : String).data
      ∧ ¬ plainFence <:+: (StructuredEvaluation.json seRoundtripExample).data)
    ∧ StructuredEvaluation.parse_raw (extractPayload
        ("Here is my evaluation:\n" ++ "```json\n" ++
          StructuredEvaluation.json seRoundtripExample ++ "\n```" ++ "\nDone.")) =
      some seRoundtripExample :=
  ⟨⟨rfl, by decide, by decide, by decide⟩,
    c9_structured_roundtrip_amended seRoundtripExample "Here is my evaluation:\n"
      "\nDone." rfl (by decide) (by decide) (by decide)⟩

/-! ## Evaluator dispatch (director.py lines 92-103, 320-434, 571-591) -/

/-- Modelled from the spec: pydantic validation of the `evaluator` tag,
whose type is the `Literal` of exactly five strings (director.py line 101);
any other value is rejected when the configuration model is constructed. -/
def DirectorConfig.validateEvaluatorTag (t : String) : Except String String :=
  if t = "default" ∨ t = "unittest" ∨ t = "pytest" ∨ t = "custom" ∨
      t = "structured" then
    .ok t
  else
    .error ("unexpected value of evaluator: " ++ t)

/-- The simple fallback evaluation of `Director._default_evaluator`
(director.py lines 394-404). -/
def Director.fallback_evaluation (execution_output : String) : EvaluationResult :=
  if strContainsB (strLower execution_output) "error" ||
      strContainsB (strLower execution_output) "fail" then
    { success := false,
      feedback := "Execution failed with errors: " ++ execution_output }
  else
    { success := true,
      feedback := "Execution completed without obvious errors." }

/-- `Director._default_evaluator` (director.py lines 320-404).  The LLM call
is an oracle `llmResponse` (`.error` for a raised exception); an
`evaluator_model` naming neither `gpt` nor `claude` raises `ValueError`
inside the same `try`.  The response fields are read strictly (`success` a
JSON boolean, `feedback` a JSON string); any failure inside the `try` —
model routing, JSON parsing, field access — lands in the `except` branch,
which returns the simple fallback evaluation. -/
def Director.default_evaluator (evaluator_model : String)
    (llmResponse : Except String String) (execution_output : String) :
    EvaluationResult :=
  let attempt : Except String EvaluationResult := do
    let response_text ←
      if strContainsB evaluator_model "gpt" then llmResponse
      else if strContainsB evaluator_model "claude" then llmResponse
      else .error ("Unsupported model: " ++ evaluator_model)
    match jsonParse (extractPayload response_text) with
    | some (.obj fs) =>
      match fieldLookup fs "success", fieldLookup fs "feedback" with
      | some (.bool b), some (.str f) => .ok { success := b, feedback := f }
      | _, _ => .error "KeyError"
    | _ => .error "json.loads"
  match attempt with
  | .ok r => r
  | .error _ => Director.fallback_evaluation execution_output

/-- The feedback text `_structured_evaluator` renders from a parsed
`StructuredEvaluation` (director.py lines 550-562). -/
def Director.structuredFeedback (se : StructuredEvaluation) : String :=
  "\nTask Completion: " ++ formatPercent1 se.task_completion ++ "%\n\nSecurity: " ++
  se.security_check.risk_level.upper ++ " risk\n" ++
  (if se.security_check.issues.isEmpty then "No issues found"
   else String.intercalate ", " se.security_check.issues) ++
  "\n\nChanges: " ++ se.changeset.summary ++ "\n\nFeedback: " ++ se.feedback ++
  "\n\nNext Steps:\n" ++
  String.intercalate "\n" (se.next_steps.map (fun step => "- " ++ step)) ++ "\n"

/-- `Director._structured_evaluator` (director.py lines 436-569).  Both
model routes call the LLM, so the call is one oracle; a raised exception or
a failed `parse_raw` lands in the `except` branch (the exception text of a
pydantic validation error is abstracted to a fixed stand-in, only the
`success = False` shape matters downstream). -/
def Director.structured_evaluator (llmResponse : Except String String)
    (execution_output : String) : EvaluationResult :=
  match llmResponse with
  | .error e =>
    { success := false,
      feedback := "Failed to perform structured evaluation: " ++ e }
  | .ok response_text =>
    match StructuredEvaluation.parse_raw (extractPayload response_text) with
    | some se =>
      { success := se.success, feedback := Director.structuredFeedback se }
    | none =>
      { success := false,
        feedback := "Failed to perform structured evaluation: validation error" }

/-- `Director.evaluate_result` (director.py lines 571-591): the evaluator
dispatch if-chain, whose final `else` comments `# Custom evaluator` and
calls the default evaluator. -/
def Director.evaluate_result (cfg : DirectorConfig)
    (llmResponse : Except String String) (execution_output : String) :
    EvaluationResult :=
  if cfg.evaluator = "default" then
    Director.default_evaluator cfg.evaluator_model llmResponse execution_output
  else if cfg.evaluator = "unittest" then
    Director.unittest_evaluator execution_output
  else if cfg.evaluator = "pytest" then
    Director.pytest_evaluator execution_output
  else if cfg.evaluator = "structured" then
    Director.structured_evaluator llmResponse execution_output
  else
    Director.default_evaluator cfg.evaluator_model llmResponse execution_output

/-- C8 (counterexample): a tag outside the five `Literal` values — here
`"simple"` — is *rejected at configuration time* by the pydantic model, so
it never reaches the dispatch fallback: the claim that no tag value is
rejected and every unrecognized tag silently falls back to the default
evaluator is false. -/
theorem c8_unrecognized_tag_counterexample :
    DirectorConfig.validateEvaluatorTag "simple" =
      .error ("unexpected value of evaluator: " ++ "simple") := by
  rfl

/-- C8 (amended): configuration accepts exactly the five tags `default`,
`unittest`, `pytest`, `custom` and `structured` and rejects every other
value at configuration time; at dispatch time a tag with no dedicated
branch — among the accepted tags, only `custom` — falls through the
if-chain to the default evaluator without error. -/
theorem c8_evaluator_dispatch_amended (cfg : DirectorConfig)
    (llmResponse : Except String String) (execution_output : String) :
    (DirectorConfig.validateEvaluatorTag cfg.evaluator = .ok cfg.evaluator ↔
      (cfg.evaluator = "default" ∨ cfg.evaluator = "unittest" ∨
       cfg.evaluator = "pytest" ∨ cfg.evaluator = "custom" ∨
       cfg.evaluator = "structured"))
    ∧ (cfg.evaluator ≠ "default" → cfg.evaluator ≠ "unittest" →
       cfg.evaluator ≠ "pytest" → cfg.evaluator ≠ "structured" →
       Director.evaluate_result cfg llmResponse execution_output =
         Director.default_evaluator cfg.evaluator_model llmResponse
           execution_output) := by
  constructor
  · unfold DirectorConfig.validateEvaluatorTag
    split
    · rename_i h
      exact iff_of_true rfl h
    · rename_i h
      exact iff_of_false (by simp) h
  · intro h1 h2 h3 h4
    unfold Director.evaluate_result
    rw [if_neg h1, if_neg h2, if_neg h3, if_neg h4]

/-- A configuration carrying the `custom` evaluator tag. -/
def cfgCustomTag : DirectorConfig :=
  { prompt := "implement the feature"
    coder_model := "gpt-4o"
    evaluator_model := "gpt-4o"
    max_iterations := 5
    execution_command := "python tests.py"
    context_editable := ["src/app.py"]
    context_read_only := []
    evaluator := "custom"
    log_file := "director_log.txt" }

theorem c8_evaluator_dispatch_amended_witness :
    (DirectorConfig.validateEvaluatorTag "custom" = .ok "custom")
    ∧ Director.evaluate_result cfgCustomTag (.ok "no fence") "it worked" =
        Director.default_evaluator "gpt-4o" (.ok "no fence") "it worked" :=
  ⟨(c8_evaluator_dispatch_amended cfgCustomTag (.ok "no fence") "it worked").1.mpr
      (by decide),
   (c8_evaluator_dispatch_amended cfgCustomTag (.ok "no fence") "it worked").2
      (by decide) (by decide) (by decide) (by decide)⟩
